import Mathlib

/-!
# traffic: request dispatch of `router.go`

A shallow embedding of `router.go` (package `traffic`): the route table and its
registration operations, the status-capturing `LoggedResponseWriter`, and
`Router.ServeHTTP`.

Modelling conventions.

* Go pointers that a single `ServeHTTP` call shares (`*http.Request`, the
  `*LoggedResponseWriter`, the receiver `*Router`) live in one `ServeState`
  passed explicitly.
* Handlers, filters and the log callback are user callables.  A callable is a
  function of the request it receives and yields the list of `Effect`s it
  performs on the writer and the request it was handed and on the router that
  is serving.
* A ghost `trace` records every callable invocation in order.
* `net/url` and `Route.Match` are not part of `router.go`; they are fields of
  `Env` and every theorem quantifies over them.
-/

namespace Traffic

/-! ## Data model -/

/-- Go `type HttpMethod string`. -/
abbrev HttpMethod := String

/-- Go `url.Values`, a `map[string][]string`, as an association list. -/
abbrev Values := List (String × List String)

/-- The fields of `url.URL` that `router.go` reads or writes. -/
structure URL where
  Path : String
  RawQuery : String
deriving DecidableEq, Repr

/-- The fields of `http.Request` that `router.go` reads or writes. -/
structure Request where
  Method : String
  URL : URL
deriving DecidableEq, Repr

/-- A call received by the underlying `http.ResponseWriter`. -/
inductive WriterCall where
  | WriteHeader (statusCode : Int)
  | Write (data : String)
deriving DecidableEq, Repr

/-- The underlying `http.ResponseWriter`, as the calls it has received so far. -/
abbrev ResponseWriter := List WriterCall

/-- Go `RequestLogFunc func(int, *http.Request)`; the result is the text the
callback emits. -/
abbrev RequestLogFunc := Int → Request → String

/-- What a handler or filter does with the `(w, r)` pair it is given and with
the router that is serving, one entry per operation, in program order. -/
inductive Effect where
  /-- The call `w.WriteHeader(statusCode)`. -/
  | WriteHeader (statusCode : Int)
  /-- The call `w.Write(data)`, promoted from the embedded writer. -/
  | Write (data : String)
  /-- The call `w.(http.Flusher).Flush()`: the wrapper has a `Flush` method. -/
  | Flush
  /-- An assignment through the request pointer, `*r = req`. -/
  | SetRequest (req : Request)
  /-- The call `router.Add(method, path, handler)` on the serving router. -/
  | Add (method : String) (path : String) (handler : Request → List Effect)
  /-- The call `router.Get(path, handler)` on the serving router. -/
  | Get (path : String) (handler : Request → List Effect)
  /-- The call `router.AddBeforeFilter(beforeFilter)` on the serving router. -/
  | AddBeforeFilter (beforeFilter : Request → List Effect × Bool)
  /-- The assignment `router.NotFoundHandler = handler` on the serving router. -/
  | SetNotFoundHandler (handler : Option (Request → List Effect))
  /-- The assignment `router.RequestLogFunc = log` on the serving router. -/
  | SetRequestLogFunc (log : RequestLogFunc)

/-- Modelled from the spec: `HttpHandleFunc` is declared outside `router.go`; it
is a callable invoked with the response writer and the request. -/
abbrev HttpHandleFunc := Request → List Effect

/-- Go `BeforeFilterFunc func(http.ResponseWriter, *http.Request) bool`. -/
abbrev BeforeFilterFunc := Request → List Effect × Bool

/-- Modelled from the spec: type `Route` is declared outside `router.go`; a
route pairs a path template with a handler. -/
structure Route where
  Path : String
  Handler : HttpHandleFunc

/-- Modelled from the spec: `NewRoute` is declared outside `router.go`; it
builds the route for a path template and a handler. -/
def NewRoute (path : String) (handler : HttpHandleFunc) : Route :=
  { Path := path, Handler := handler }

/-- Code that `router.go` calls and does not define: `Route.Match` of this
package, and `URL.Query`, `Values.Encode` and `URL.String` of `net/url`. -/
structure Env where
  /-- Method `route.Match(path)`, returning `(values, ok)`. -/
  Match : Route → String → Values × Bool
  /-- Method `r.URL.Query()` as a function of `RawQuery`. -/
  Query : String → Values
  /-- Method `values.Encode()`. -/
  Encode : Values → String
  /-- Method `u.String()`, which `fmt` applies to `r.URL` under `%s`, as a
  function of the two fields the model holds; the other fields of the URL are
  those of the request being served, which `router.go` never touches. -/
  URLString : URL → String

/-- Go `type Router struct`.  A map lookup yields `none` for an absent key and
a nil function is `none`. -/
structure Router where
  routes : HttpMethod → Option (List Route)
  NotFoundHandler : Option HttpHandleFunc
  beforeFilters : List BeforeFilterFunc
  RequestLogFunc : RequestLogFunc

/-- Go `router.routes[method]`: the nil slice for an absent key. -/
def Router.lookup (router : Router) (method : HttpMethod) : List Route :=
  (router.routes method).getD []

/-! ## Registration -/

/-- Go `Router.addRoute`. -/
def Router.addRoute (router : Router) (method : HttpMethod) (route : Route) : Router :=
  { router with
    routes := fun m =>
      if m = method then some (router.lookup method ++ [route]) else router.routes m }

/-- Go `Router.Add`: the updated router and the returned route. -/
def Router.Add (router : Router) (method : HttpMethod) (path : String)
    (handler : HttpHandleFunc) : Router × Route :=
  let route := NewRoute path handler
  (router.addRoute method route, route)

/-- Go `Router.Get`. -/
def Router.Get (router : Router) (path : String) (handler : HttpHandleFunc) :
    Router × Route :=
  let (router1, route) := router.Add "GET" path handler
  (router1.addRoute "HEAD" route, route)

/-- Go `Router.Post`. -/
def Router.Post (router : Router) (path : String) (handler : HttpHandleFunc) :
    Router × Route :=
  router.Add "POST" path handler

/-- Go `Router.Delete`. -/
def Router.Delete (router : Router) (path : String) (handler : HttpHandleFunc) :
    Router × Route :=
  router.Add "DELETE" path handler

/-- Go `Router.Put`. -/
def Router.Put (router : Router) (path : String) (handler : HttpHandleFunc) :
    Router × Route :=
  router.Add "PUT" path handler

/-- Go `Router.Patch`. -/
def Router.Patch (router : Router) (path : String) (handler : HttpHandleFunc) :
    Router × Route :=
  router.Add "PATCH" path handler

/-- Go `Router.AddBeforeFilter`. -/
def Router.AddBeforeFilter (router : Router) (beforeFilter : BeforeFilterFunc) : Router :=
  { router with beforeFilters := router.beforeFilters ++ [beforeFilter] }

/-! ## Serving state -/

/-- One invocation of a callable during `ServeHTTP`, with the request as it is
at the time of the call. -/
inductive Event where
  /-- The call `route.Match(path)` on entry `i` of the method's sequence. -/
  | Match (i : Nat) (path : String)
  /-- The call of `router.beforeFilters[i]` with `request`. -/
  | Filter (i : Nat) (request : Request)
  /-- The call of `route.Handler` for entry `i` of the method's sequence. -/
  | Handler (i : Nat) (request : Request)
  /-- The call of `router.NotFoundHandler` with `request`. -/
  | NotFound (request : Request)
  /-- The call of the log callback with `(statusCode, request)`. -/
  | Log (statusCode : Int) (request : Request)
deriving DecidableEq, Repr

/-- Go `type LoggedResponseWriter struct`.  Its `request` field is a pointer to
the request of the call; the pointee is `ServeState.r`. -/
structure LoggedResponseWriter where
  ResponseWriter : ResponseWriter
  log : RequestLogFunc
  statusCode : Int

/-- The objects one `ServeHTTP` call works on.  The field `router` is the
object behind the receiver `router *Router`. -/
structure ServeState where
  lrw : LoggedResponseWriter
  r : Request
  trace : List Event
  stdout : List String
  router : Router

/-- Append an event to the ghost trace. -/
def ServeState.emit (s : ServeState) (e : Event) : ServeState :=
  { s with trace := s.trace ++ [e] }

/-- Go `http.StatusOK`. -/
def StatusOK : Int := 200

/-- Go `http.StatusNotFound`. -/
def StatusNotFound : Int := 404

/-- Go `LoggedResponseWriter.WriteHeader`. -/
def WriteHeader (s : ServeState) (statusCode : Int) : ServeState :=
  { s with
    lrw := { s.lrw with
      statusCode := statusCode
      ResponseWriter := s.lrw.ResponseWriter ++ [WriterCall.WriteHeader statusCode] } }

/-- Go `Write`, promoted from the embedded `http.ResponseWriter`. -/
def Write (s : ServeState) (data : String) : ServeState :=
  { s with
    lrw := { s.lrw with
      ResponseWriter := s.lrw.ResponseWriter ++ [WriterCall.Write data] } }

/-- The status `Flush` passes to the log callback. -/
def flushStatus (statusCode : Int) : Int :=
  if statusCode = 0 then StatusOK else statusCode

/-- Go `LoggedResponseWriter.Flush`. -/
def Flush (s : ServeState) : ServeState :=
  let statusCode := flushStatus s.lrw.statusCode
  { s with
    trace := s.trace ++ [Event.Log statusCode s.r]
    stdout := s.stdout ++ [s.lrw.log statusCode s.r] }

/-- Perform one effect of a callable on the state. -/
def runEffect (s : ServeState) : Effect → ServeState
  | Effect.WriteHeader statusCode => WriteHeader s statusCode
  | Effect.Write data => Write s data
  | Effect.Flush => Flush s
  | Effect.SetRequest req => { s with r := req }
  | Effect.Add method path handler => { s with router := (s.router.Add method path handler).1 }
  | Effect.Get path handler => { s with router := (s.router.Get path handler).1 }
  | Effect.AddBeforeFilter beforeFilter =>
    { s with router := s.router.AddBeforeFilter beforeFilter }
  | Effect.SetNotFoundHandler handler => { s with router := { s.router with NotFoundHandler := handler } }
  | Effect.SetRequestLogFunc log => { s with router := { s.router with RequestLogFunc := log } }

/-- Perform the effects of a callable in program order. -/
def runEffects (s : ServeState) (effects : List Effect) : ServeState :=
  effects.foldl runEffect s

/-- Go `http.Error(w, error, code)` of `net/http`: the status, then the text
and a newline as the body.  Header-map edits are not modelled. -/
def httpError (s : ServeState) (error : String) (code : Int) : ServeState :=
  Write (WriteHeader s code) (error ++ "\n")

/-! ## Dispatch -/

/-- Go map assignment `m[k] = v`. -/
def Values.set : Values → String → List String → Values
  | [], k, v => [(k, v)]
  | (k', v') :: rest, k, v =>
    if k' = k then (k, v) :: rest else (k', v') :: Values.set rest k v

/-- Go map read `m[k]` with the comma-ok form. -/
def Values.get? (m : Values) (k : String) : Option (List String) :=
  (m.find? (fun kv => kv.1 = k)).map Prod.snd

/-- The loop `for k, v := range values { newValues[k] = v }`. -/
def mergeValues (newValues values : Values) : Values :=
  values.foldl (fun m kv => Values.set m kv.1 kv.2) newValues

/-- The loop over `router.beforeFilters`, from filter number `i` on: the state
after the loop and the final `continueAfterBeforeFilter`. -/
def runBeforeFilters : List BeforeFilterFunc → Nat → ServeState → ServeState × Bool
  | [], _, s => (s, true)
  | beforeFilter :: rest, i, s =>
    let s1 := s.emit (Event.Filter i s.r)
    let result := beforeFilter s1.r
    let s2 := runEffects s1 result.1
    if !result.2 then (s2, false) else runBeforeFilters rest (i + 1) s2

/-- The query rewrite of `ServeHTTP`: `newValues := r.URL.Query()`, the merge
loop, and `r.URL.RawQuery = newValues.Encode()`. -/
def rewriteQuery (env : Env) (r : Request) (values : Values) : Request :=
  let newValues := mergeValues (env.Query r.URL.RawQuery) values
  { r with URL := { r.URL with RawQuery := env.Encode newValues } }

/-- The body of `if ok { ... }` in `ServeHTTP` for entry `i` of the sequence. -/
def serveMatched (env : Env) (router : Router) (route : Route) (i : Nat)
    (values : Values) (s : ServeState) : ServeState :=
  let s1 := { s with r := rewriteQuery env s.r values }
  let filtered := runBeforeFilters router.beforeFilters 0 s1
  let s2 := filtered.1
  let s3 :=
    if filtered.2 then runEffects (s2.emit (Event.Handler i s2.r)) (route.Handler s2.r) else s2
  Flush s3

/-- The part of `ServeHTTP` after the loop over the routes. -/
def serveNotFound (router : Router) (s : ServeState) : ServeState :=
  let s1 :=
    match router.NotFoundHandler with
    | some notFoundHandler => runEffects (s.emit (Event.NotFound s.r)) (notFoundHandler s.r)
    | none => httpError s "404 page not found" StatusNotFound
  Flush s1

/-- The loop over `router.routes[HttpMethod(r.Method)]`, from entry `i` on,
followed by the rest of `ServeHTTP`. -/
def serveRoutes (env : Env) (router : Router) : List Route → Nat → ServeState → ServeState
  | [], _, s => serveNotFound router s
  | route :: rest, i, s =>
    let s1 := s.emit (Event.Match i s.r.URL.Path)
    let matched := env.Match route s1.r.URL.Path
    if matched.2 then serveMatched env router route i matched.1 s1
    else serveRoutes env router rest (i + 1) s1

/-- The state `ServeHTTP` starts from: the fresh wrapper around `w`. -/
def initState (router : Router) (w : ResponseWriter) (r : Request) : ServeState :=
  { lrw := { ResponseWriter := w, log := router.RequestLogFunc, statusCode := 0 }
    r := r
    trace := []
    stdout := []
    router := router }

/-- Go `Router.ServeHTTP`.  Each read of a router field (`RequestLogFunc`, the
range expressions `routes[...]` and `beforeFilters`, `NotFoundHandler`) is
evaluated once, before the first filter or handler of the call runs, so the
reads use the router as it is at the call. -/
def ServeHTTP (env : Env) (router : Router) (w : ResponseWriter) (r : Request) : ServeState :=
  serveRoutes env router (router.lookup r.Method) 0 (initState router w r)

/-! ## Construction -/

/-- Go `Router.defaultRequestLogFunc`: the text of
`fmt.Printf("%d - %s\n", statusCode, r.URL)`, where `%s` prints `r.URL` through
its `String` method. -/
def defaultRequestLogFunc (env : Env) (statusCode : Int) (r : Request) : String :=
  toString statusCode ++ " - " ++ env.URLString r.URL ++ "\n"

/-- Go `New`. -/
def New (env : Env) : Router :=
  { routes := fun _ => none
    NotFoundHandler := none
    beforeFilters := []
    RequestLogFunc := defaultRequestLogFunc env }

/-! ## A concrete environment for closed examples -/

/-- Split a character list at every occurrence of `sep`. -/
def splitChars (sep : Char) : List Char → List (List Char)
  | [] => [[]]
  | c :: cs =>
    match splitChars sep cs with
    | [] => [[]]
    | seg :: segs => if c = sep then [] :: seg :: segs else (c :: seg) :: segs

/-- Cut a character list at the first occurrence of `sep`. -/
def cutAt (sep : Char) : List Char → List Char × List Char
  | [] => ([], [])
  | c :: cs => if c = sep then ([], cs) else (c :: (cutAt sep cs).1, (cutAt sep cs).2)

/-- Go `Values.Add`: append `v` to the values under `k`. -/
def Values.add : Values → String → String → Values
  | [], k, v => [(k, [v])]
  | (k', v') :: rest, k, v =>
    if k' = k then (k', v' ++ [v]) :: rest else (k', v') :: Values.add rest k v

/-- Go `url.ParseQuery` on a query string that needs no unescaping: the
`key=value` pairs between `&`, values collected per key in order. -/
def plainQuery (raw : String) : Values :=
  (splitChars '&' raw.toList).foldl
    (fun m piece =>
      if piece = [] then m
      else Values.add m (String.mk (cutAt '=' piece).1) (String.mk (cutAt '=' piece).2))
    []

/-- Lexicographic order on character lists. -/
def ltChars : List Char → List Char → Bool
  | _, [] => false
  | [], _ :: _ => true
  | a :: as, b :: bs =>
    if a.toNat < b.toNat then true
    else if b.toNat < a.toNat then false
    else ltChars as bs

/-- Insert a map entry into a key-sorted list. -/
def insertKey (kv : String × List String) : Values → Values
  | [] => [kv]
  | kv' :: rest =>
    if ltChars kv.1.toList kv'.1.toList then kv :: kv' :: rest else kv' :: insertKey kv rest

/-- Go `Values.Encode` on keys and values that need no escaping: `key=value`
pairs joined by `&`, keys sorted. -/
def plainEncode (v : Values) : String :=
  "&".intercalate ((v.foldr insertKey []).flatMap (fun kv => kv.2.map (fun x => kv.1 ++ "=" ++ x)))

/-- Match a template segment list against a path segment list, collecting
the captures. -/
def matchSegments : List (List Char) → List (List Char) → Option Values
  | [], [] => some []
  | [], _ :: _ => none
  | _ :: _, [] => none
  | t :: ts, p :: ps =>
    match t with
    | ':' :: name =>
      (matchSegments ts ps).map (fun vs => (String.mk name, [String.mk p]) :: vs)
    | _ => if t = p then matchSegments ts ps else none

/-- Modelled from the spec: `Route.Match` is declared outside `router.go`.  Both
strings are split on `/`; the segment counts must agree, a literal segment
must equal the path segment, and a segment starting with `:` captures it. -/
def specMatch (route : Route) (path : String) : Values × Bool :=
  match matchSegments (splitChars '/' route.Path.toList) (splitChars '/' path.toList) with
  | some values => (values, true)
  | none => ([], false)

/-- Go `URL.String()` on a URL that has a path and a raw query and nothing
else, the path needing no escaping: the path, followed by `?` and the raw
query when the raw query is not empty. -/
def plainURLString (u : URL) : String :=
  if u.RawQuery = "" then u.Path else u.Path ++ "?" ++ u.RawQuery

/-- The environment used in closed examples, all on paths and queries that
need no escaping. -/
def plainEnv : Env :=
  { Match := specMatch, Query := plainQuery, Encode := plainEncode,
    URLString := plainURLString }

/-! ## Observations on traces and effects -/

/-- The event is a call of the log callback. -/
def Event.isLog : Event → Bool
  | Event.Log _ _ => true
  | _ => false

/-- The event is a call of a route handler. -/
def Event.isHandler : Event → Bool
  | Event.Handler _ _ => true
  | _ => false

/-- The event is a call of a before-filter. -/
def Event.isFilter : Event → Bool
  | Event.Filter _ _ => true
  | _ => false

/-- The event is a call of `Route.Match`. -/
def Event.isMatch : Event → Bool
  | Event.Match _ _ => true
  | _ => false

/-- The event is a call of the not-found handler. -/
def Event.isNotFound : Event → Bool
  | Event.NotFound _ => true
  | _ => false

/-- The event is a call of a before-filter or of a route handler. -/
def Event.isCall (e : Event) : Bool :=
  e.isFilter || e.isHandler

/-- The `Match` calls on entries `i .. i + n - 1` of a sequence. -/
def matchEvents : Nat → Nat → String → List Event
  | _, 0, _ => []
  | i, n + 1, path => Event.Match i path :: matchEvents (i + 1) n path

/-- The calls an effect list makes on the underlying writer. -/
def writerCalls : List Effect → List WriterCall
  | [] => []
  | Effect.WriteHeader c :: rest => WriterCall.WriteHeader c :: writerCalls rest
  | Effect.Write d :: rest => WriterCall.Write d :: writerCalls rest
  | _ :: rest => writerCalls rest

/-- The status of the most recent `WriteHeader` in an effect list. -/
def lastStatus : List Effect → Option Int
  | [] => none
  | Effect.WriteHeader c :: rest => (lastStatus rest).orElse (fun _ => some c)
  | _ :: rest => lastStatus rest

/-- The request stored by the most recent `SetRequest` in an effect list. -/
def lastRequest : List Effect → Option Request
  | [] => none
  | Effect.SetRequest q :: rest => (lastRequest rest).orElse (fun _ => some q)
  | _ :: rest => lastRequest rest

/-- Entry `k` of `routes` is `route`, it matches `path`, and no entry before
it does. -/
def FirstMatch (env : Env) (routes : List Route) (path : String) (k : Nat)
    (route : Route) : Prop :=
  routes[k]? = some route ∧ (env.Match route path).2 = true ∧
    ∀ l R, l < k → routes[l]? = some R → (env.Match R path).2 = false

/-- The state in which the filter loop starts when `route`, entry `k` of the
method's sequence, is the first match: the `Match` calls on entries `0 .. k`
are made and the query is rewritten. -/
def filterEntry (env : Env) (router : Router) (w : ResponseWriter) (r : Request) (k : Nat)
    (route : Route) : ServeState :=
  { initState router w r with
    trace := matchEvents 0 (k + 1) r.URL.Path
    r := rewriteQuery env r (env.Match route r.URL.Path).1 }

/-- The request that filter number `j` of the chain receives, given that the
filters before it return true. -/
def requestAtFilter (env : Env) (router : Router) (w : ResponseWriter) (r : Request) (k : Nat)
    (route : Route) (j : Nat) : Request :=
  (runBeforeFilters (router.beforeFilters.take j) 0 (filterEntry env router w r k route)).1.r

/-! ## Example routers -/

/-- A handler that writes `body` and nothing else. -/
def writeBody (body : String) : HttpHandleFunc :=
  fun _ => [Effect.Write body]

/-- The router after `Get("/users/:id", ...)` and then `Get("/users/42", ...)`. -/
def exampleRouter : Router :=
  (((New plainEnv).Get "/users/:id" (writeBody "by id")).1.Get "/users/42" (writeBody "exact")).1

/-- The request `GET /users/42?id=7`. -/
def exampleRequest : Request :=
  { Method := "GET", URL := { Path := "/users/42", RawQuery := "id=7" } }

/-- The `exampleRouter` behind three filters: the first and third return true,
the second writes status 403 and returns false. -/
def guardedRouter : Router :=
  ((exampleRouter.AddBeforeFilter (fun _ => ([], true))).AddBeforeFilter
    (fun _ => ([Effect.WriteHeader 403], false))).AddBeforeFilter (fun _ => ([], true))

/-- The request `GET /missing`. -/
def missingRequest : Request :=
  { Method := "GET", URL := { Path := "/missing", RawQuery := "" } }

/-- The request `BREW /coffee`, of a method no router of the examples holds. -/
def brewRequest : Request :=
  { Method := "BREW", URL := { Path := "/coffee", RawQuery := "" } }

/-- The router of `New` with a not-found handler that calls `Flush` on the
writer it is given, as a streaming handler does through `http.Flusher`. -/
def flushingRouter : Router :=
  { New plainEnv with NotFoundHandler := some (fun _ => [Effect.Flush]) }

/-- The status `Flush` reports after a callable whose most recent `WriteHeader`
status is `last`, on a wrapper that was fresh before. -/
def reportedStatus (last : Option Int) : Int :=
  match last with
  | none => 200
  | some c => if c = 0 then 200 else c

/-! ## Observations for the frame and order claims -/

/-- The effect is a call of the registration API on the serving router. -/
def Effect.isRegistration : Effect → Bool
  | Effect.Add _ _ _ => true
  | Effect.Get _ _ => true
  | Effect.AddBeforeFilter _ => true
  | Effect.SetNotFoundHandler _ => true
  | Effect.SetRequestLogFunc _ => true
  | _ => false

/-- The effect is an assignment through the request pointer. -/
def Effect.isSetRequest : Effect → Bool
  | Effect.SetRequest _ => true
  | _ => false

/-- The request an event carries; a `Match` call is given the path alone. -/
def Event.request? : Event → Option Request
  | Event.Match _ _ => none
  | Event.Filter _ q => some q
  | Event.Handler _ q => some q
  | Event.NotFound q => some q
  | Event.Log _ q => some q

/-- The phase of the request an event kind belongs to: matching, filtering,
handling (by a route handler or by the not-found handler), flushed. -/
def Event.phase : Event → Nat
  | Event.Match _ _ => 0
  | Event.Filter _ _ => 1
  | Event.Handler _ _ => 2
  | Event.NotFound _ => 2
  | Event.Log _ _ => 3

/-- The request and every request carried by an event of the trace are `q`. -/
def AllRequests (q : Request) (s : ServeState) : Prop :=
  s.r = q ∧ ∀ e ∈ s.trace, ∀ q2, e.request? = some q2 → q2 = q

/-- No log call of the trace has status 0. -/
def NoZeroLog (s : ServeState) : Prop :=
  ∀ c q, Event.Log c q ∈ s.trace → c ≠ 0

/-- A handler that writes the values it finds under `id` in the query of the
request it is given. -/
def echoId : HttpHandleFunc :=
  fun req => [Effect.Write (",".intercalate ((Values.get? (plainQuery req.URL.RawQuery) "id").getD []))]

/-- The router after `Get("/users/:id", echoId)`. -/
def scenarioRouter : Router :=
  ((New plainEnv).Get "/users/:id" echoId).1

/-- The request `GET /users/42?sort=asc`. -/
def scenarioRequest : Request :=
  { Method := "GET", URL := { Path := "/users/42", RawQuery := "sort=asc" } }

/-- A before-filter that empties the query of the request and returns true. -/
def wipeQuery : BeforeFilterFunc :=
  fun req => ([Effect.SetRequest { req with URL := { req.URL with RawQuery := "" } }], true)

/-- The `scenarioRouter` behind the filter `wipeQuery`. -/
def wipingRouter : Router :=
  scenarioRouter.AddBeforeFilter wipeQuery

/-- The router of `New` with the one route `/late`, whose handler registers a
before-filter on the serving router. -/
def lateRegistrationRouter : Router :=
  ((New plainEnv).Get "/late" (fun _ => [Effect.AddBeforeFilter (fun _ => ([], true))])).1

/-- The `exampleRouter` behind a filter that calls `Flush` on the writer it is
given and returns true. -/
def flushingFilterRouter : Router :=
  exampleRouter.AddBeforeFilter (fun _ => ([Effect.Flush], true))

/-- The request `GET /late`. -/
def lateRequest : Request :=
  { Method := "GET", URL := { Path := "/late", RawQuery := "" } }

/-! ## Lemmas on effects -/

theorem runEffects_cons (s : ServeState) (e : Effect) (effects : List Effect) :
    runEffects s (e :: effects) = runEffects (runEffect s e) effects := rfl

theorem runEffects_log (s : ServeState) (effects : List Effect) :
    (runEffects s effects).lrw.log = s.lrw.log := by
  induction effects generalizing s with
  | nil => rfl
  | cons e rest ih =>
    rw [runEffects_cons, ih]
    cases e <;> rfl

theorem runEffects_writer (s : ServeState) (effects : List Effect) :
    (runEffects s effects).lrw.ResponseWriter =
      s.lrw.ResponseWriter ++ writerCalls effects := by
  induction effects generalizing s with
  | nil => simp [runEffects, writerCalls]
  | cons e rest ih =>
    rw [runEffects_cons, ih]
    cases e <;> simp [runEffect, WriteHeader, Write, Flush, writerCalls]

theorem runEffects_status (s : ServeState) (effects : List Effect) :
    (runEffects s effects).lrw.statusCode =
      (lastStatus effects).getD s.lrw.statusCode := by
  induction effects generalizing s with
  | nil => simp [runEffects, lastStatus]
  | cons e rest ih =>
    rw [runEffects_cons, ih]
    cases e <;> simp [runEffect, WriteHeader, Write, Flush, lastStatus]
    cases lastStatus rest <;> simp [Option.orElse]

theorem runEffects_request (s : ServeState) (effects : List Effect) :
    (runEffects s effects).r = (lastRequest effects).getD s.r := by
  induction effects generalizing s with
  | nil => simp [runEffects, lastRequest]
  | cons e rest ih =>
    rw [runEffects_cons, ih]
    cases e <;> simp [runEffect, WriteHeader, Write, Flush, lastRequest]
    cases lastRequest rest <;> simp [Option.orElse]

/-- Effects add only log events to the trace, and none without a `Flush`. -/
theorem runEffects_trace (s : ServeState) (effects : List Effect) :
    ∃ t, (runEffects s effects).trace = s.trace ++ t ∧
      (∀ e ∈ t, e.isLog = true) ∧ (Effect.Flush ∉ effects → t = []) := by
  induction effects generalizing s with
  | nil => exact ⟨[], by simp [runEffects]⟩
  | cons e rest ih =>
    obtain ⟨t, ht, hlog, hnil⟩ := ih (runEffect s e)
    rw [runEffects_cons, ht]
    cases e with
    | WriteHeader c =>
      exact ⟨t, rfl, hlog, fun h => hnil (fun h2 => h (List.mem_cons_of_mem _ h2))⟩
    | Write d =>
      exact ⟨t, rfl, hlog, fun h => hnil (fun h2 => h (List.mem_cons_of_mem _ h2))⟩
    | SetRequest q =>
      exact ⟨t, rfl, hlog, fun h => hnil (fun h2 => h (List.mem_cons_of_mem _ h2))⟩
    | Add m p h0 =>
      exact ⟨t, rfl, hlog, fun h => hnil (fun h2 => h (List.mem_cons_of_mem _ h2))⟩
    | Get p h0 =>
      exact ⟨t, rfl, hlog, fun h => hnil (fun h2 => h (List.mem_cons_of_mem _ h2))⟩
    | AddBeforeFilter f =>
      exact ⟨t, rfl, hlog, fun h => hnil (fun h2 => h (List.mem_cons_of_mem _ h2))⟩
    | SetNotFoundHandler h0 =>
      exact ⟨t, rfl, hlog, fun h => hnil (fun h2 => h (List.mem_cons_of_mem _ h2))⟩
    | SetRequestLogFunc l =>
      exact ⟨t, rfl, hlog, fun h => hnil (fun h2 => h (List.mem_cons_of_mem _ h2))⟩
    | Flush =>
      refine ⟨Event.Log (flushStatus s.lrw.statusCode) s.r :: t, ?_, ?_, ?_⟩
      · simp [runEffect, Flush]
      · intro e he
        rcases List.mem_cons.mp he with rfl | he
        · rfl
        · exact hlog e he
      · intro h
        exact absurd (List.mem_cons_self _ _) h

/-! ## Lemmas on the loop over the routes -/

theorem matchEvents_succ (i n : Nat) (path : String) :
    matchEvents i (n + 1) path = matchEvents i n path ++ [Event.Match (i + n) path] := by
  induction n generalizing i with
  | zero => simp [matchEvents]
  | succ n ih =>
    rw [matchEvents, ih (i + 1)]
    simp [matchEvents, Nat.add_assoc, Nat.add_comm 1]

theorem serveRoutes_skip (env : Env) (router : Router) (pre rest : List Route) (i : Nat)
    (s : ServeState) (h : ∀ R ∈ pre, (env.Match R s.r.URL.Path).2 = false) :
    serveRoutes env router (pre ++ rest) i s =
      serveRoutes env router rest (i + pre.length)
        { s with trace := s.trace ++ matchEvents i pre.length s.r.URL.Path } := by
  induction pre generalizing i s with
  | nil => simp [matchEvents]
  | cons R pre ih =>
    have hR : (env.Match R s.r.URL.Path).2 = false := h R (List.mem_cons_self _ _)
    have hpre : ∀ R' ∈ pre, (env.Match R' (s.emit (Event.Match i s.r.URL.Path)).r.URL.Path).2 = false :=
      fun R' hR' => h R' (List.mem_cons_of_mem _ hR')
    have := ih (i + 1) (s.emit (Event.Match i s.r.URL.Path)) hpre
    simp only [List.cons_append, serveRoutes, ServeState.emit, hR] at this ⊢
    simp only [Bool.false_eq_true, if_false, List.append_eq]
    rw [this]
    simp [matchEvents, List.length_cons, Nat.add_assoc, Nat.add_comm 1]

theorem firstMatch_split (env : Env) (routes : List Route) (path : String) (k : Nat)
    (route : Route) (h : FirstMatch env routes path k route) :
    routes = routes.take k ++ route :: routes.drop (k + 1) ∧ (routes.take k).length = k ∧
      ∀ R ∈ routes.take k, (env.Match R path).2 = false := by
  obtain ⟨hk, _, hpre⟩ := h
  have hlt : k < routes.length := by
    rcases Nat.lt_or_ge k routes.length with h | h
    · exact h
    · rw [List.getElem?_eq_none h] at hk
      cases hk
  refine ⟨?_, ?_, ?_⟩
  · have hget : routes[k] = route := by
      rw [List.getElem?_eq_getElem hlt] at hk
      exact Option.some.inj hk
    rw [← hget, ← List.drop_eq_getElem_cons hlt, List.take_append_drop]
  · simp [List.length_take, Nat.min_eq_left (Nat.le_of_lt hlt)]
  · intro R hR
    obtain ⟨l, hl, hlR⟩ := List.getElem_of_mem hR
    rw [List.length_take] at hl
    have hlk : l < k := lt_of_lt_of_le hl (Nat.min_le_left _ _)
    apply hpre l R hlk
    rw [List.getElem_take] at hlR
    rw [List.getElem?_eq_getElem, hlR]

/-- A request whose first matching entry is `k` is served by the matched
branch, after the `Match` calls on entries `0 .. k`. -/
theorem ServeHTTP_of_firstMatch (env : Env) (router : Router) (w : ResponseWriter)
    (r : Request) (k : Nat) (route : Route)
    (h : FirstMatch env (router.lookup r.Method) r.URL.Path k route) :
    ServeHTTP env router w r =
      serveMatched env router route k (env.Match route r.URL.Path).1
        { initState router w r with trace := matchEvents 0 (k + 1) r.URL.Path } := by
  obtain ⟨hsplit, hlen, hpre⟩ := firstMatch_split env _ _ _ _ h
  unfold ServeHTTP
  rw [hsplit, serveRoutes_skip env router _ _ 0 (initState router w r) hpre, hlen]
  simp only [serveRoutes, ServeState.emit, initState, h.2.1, if_true, Nat.zero_add,
    List.nil_append, matchEvents_succ]

/-- A request that no entry of the method's sequence matches is served by the
not-found branch, after one `Match` call per entry. -/
theorem ServeHTTP_of_noMatch (env : Env) (router : Router) (w : ResponseWriter)
    (r : Request)
    (h : ∀ R ∈ router.lookup r.Method, (env.Match R r.URL.Path).2 = false) :
    ServeHTTP env router w r =
      serveNotFound router
        { initState router w r with
          trace := matchEvents 0 (router.lookup r.Method).length r.URL.Path } := by
  unfold ServeHTTP
  have := serveRoutes_skip env router (router.lookup r.Method) [] 0 (initState router w r) h
  rw [List.append_nil] at this
  rw [this]
  simp [serveRoutes, initState]

theorem exists_firstMatch (env : Env) (routes : List Route) (path : String) (i : Nat)
    (R1 : Route) (h1 : routes[i]? = some R1) (hm1 : (env.Match R1 path).2 = true) :
    ∃ k route, FirstMatch env routes path k route ∧ k ≤ i := by
  classical
  have hex : ∃ l, ∃ R, routes[l]? = some R ∧ (env.Match R path).2 = true := ⟨i, R1, h1, hm1⟩
  obtain ⟨R, hR, hm⟩ := Nat.find_spec hex
  refine ⟨Nat.find hex, R, ⟨hR, hm, ?_⟩, Nat.find_min' hex ⟨R1, h1, hm1⟩⟩
  intro l R' hl hR'
  have := Nat.find_min hex hl
  by_contra hne
  exact this ⟨R', hR', by simpa using hne⟩

/-! ## Lemmas on the trace -/

theorem isLog_eq (e : Event) (h : e.isLog = true) : ∃ c q, e = Event.Log c q := by
  cases e <;> simp [Event.isLog] at h
  exact ⟨_, _, rfl⟩

/-- Effects leave every projection of the trace that ignores log events. -/
theorem runEffects_filter (p : Event → Bool) (hp : ∀ c q, p (Event.Log c q) = false)
    (s : ServeState) (effects : List Effect) :
    (runEffects s effects).trace.filter p = s.trace.filter p := by
  obtain ⟨t, ht, hlog, _⟩ := runEffects_trace s effects
  rw [ht, List.filter_append]
  have : t.filter p = [] := by
    rw [List.filter_eq_nil_iff]
    intro e he
    obtain ⟨c, q, rfl⟩ := isLog_eq e (hlog e he)
    simp [hp]
  rw [this, List.append_nil]

theorem runEffects_noFlush (s : ServeState) (effects : List Effect)
    (h : Effect.Flush ∉ effects) : (runEffects s effects).trace = s.trace := by
  obtain ⟨t, ht, _, hnil⟩ := runEffects_trace s effects
  rw [ht, hnil h, List.append_nil]

theorem matchEvents_filter (p : Event → Bool) (hp : ∀ i path, p (Event.Match i path) = false)
    (i n : Nat) (path : String) : (matchEvents i n path).filter p = [] := by
  induction n generalizing i with
  | zero => rfl
  | succ n ih => simp [matchEvents, hp, ih]

theorem matchEvents_isMatch (i n : Nat) (path : String) :
    ∀ e ∈ matchEvents i n path, e.isMatch = true := by
  induction n generalizing i with
  | zero => simp [matchEvents]
  | succ n ih =>
    intro e he
    simp only [matchEvents, List.mem_cons] at he
    rcases he with rfl | he
    · rfl
    · exact ih _ e he

/-- The filter loop leaves every projection of the trace that ignores filter
and log events. -/
theorem runBeforeFilters_filter (p : Event → Bool) (hl : ∀ c q, p (Event.Log c q) = false)
    (hf : ∀ i q, p (Event.Filter i q) = false) (filters : List BeforeFilterFunc) (i : Nat)
    (s : ServeState) :
    (runBeforeFilters filters i s).1.trace.filter p = s.trace.filter p := by
  induction filters generalizing i s with
  | nil => rfl
  | cons f rest ih =>
    simp only [runBeforeFilters]
    split
    · simp [runEffects_filter p hl, ServeState.emit, hf]
    · rw [ih, runEffects_filter p hl]
      simp [ServeState.emit, hf]

theorem runBeforeFilters_pass (filters : List BeforeFilterFunc) (i : Nat) (s : ServeState)
    (h : ∀ f ∈ filters, ∀ req, (f req).2 = true) : (runBeforeFilters filters i s).2 = true := by
  induction filters generalizing i s with
  | nil => rfl
  | cons f rest ih =>
    simp only [runBeforeFilters, h f (List.mem_cons_self _ _), Bool.not_true,
      Bool.false_eq_true, if_false]
    exact ih _ _ (fun g hg => h g (List.mem_cons_of_mem _ hg))

/-- The handler calls in the trace of the matched branch. -/
theorem serveMatched_handlers (env : Env) (router : Router) (route : Route) (k : Nat)
    (values : Values) (s : ServeState) :
    (serveMatched env router route k values s).trace.filter Event.isHandler =
      s.trace.filter Event.isHandler ++
        if (runBeforeFilters router.beforeFilters 0
            { s with r := rewriteQuery env s.r values }).2
        then [Event.Handler k
          (runBeforeFilters router.beforeFilters 0
            { s with r := rewriteQuery env s.r values }).1.r]
        else [] := by
  simp only [serveMatched, Flush]
  split
  · rw [List.filter_append, runEffects_filter _ (fun _ _ => rfl)]
    simp only [ServeState.emit, List.filter_append]
    rw [runBeforeFilters_filter _ (fun _ _ => rfl) (fun _ _ => rfl)]
    simp [Event.isHandler]
  · rw [List.filter_append, runBeforeFilters_filter _ (fun _ _ => rfl) (fun _ _ => rfl)]
    simp [Event.isHandler]

/-! ## Lemmas on the query merge -/

theorem get?_set_self (m : Values) (k : String) (v : List String) :
    Values.get? (Values.set m k v) k = some v := by
  induction m with
  | nil => simp [Values.set, Values.get?]
  | cons kv rest ih =>
    obtain ⟨k', v'⟩ := kv
    by_cases h : k' = k
    · simp [Values.set, Values.get?, h]
    · simp only [Values.set, h, if_false]
      simp only [Values.get?, List.find?_cons, h, decide_False] at ih ⊢
      exact ih

theorem get?_set_other (m : Values) (k k2 : String) (v : List String) (hne : k2 ≠ k) :
    Values.get? (Values.set m k v) k2 = Values.get? m k2 := by
  induction m with
  | nil =>
    have : ¬ k = k2 := fun h => hne h.symm
    simp [Values.set, Values.get?, this]
  | cons kv rest ih =>
    obtain ⟨k', v'⟩ := kv
    by_cases h : k' = k
    · have : ¬ k = k2 := fun h => hne h.symm
      subst h
      simp [Values.set, Values.get?, List.find?_cons, this]
    · simp only [Values.set, h, if_false]
      by_cases h2 : k' = k2
      · simp [Values.get?, List.find?_cons, h2]
      · simp only [Values.get?, List.find?_cons, h2, decide_False] at ih ⊢
        exact ih

theorem mergeValues_cons (m : Values) (kv : String × List String) (values : Values) :
    mergeValues m (kv :: values) = mergeValues (Values.set m kv.1 kv.2) values := rfl

/-- A key that `values` does not hold keeps its entry through the merge. -/
theorem mergeValues_get?_other (m values : Values) (name : String)
    (h : Values.get? values name = none) :
    Values.get? (mergeValues m values) name = Values.get? m name := by
  induction values generalizing m with
  | nil => rfl
  | cons kv rest ih =>
    obtain ⟨k, v⟩ := kv
    have hk : ¬ k = name := by
      intro hk
      simp [Values.get?, List.find?_cons, hk] at h
    have hrest : Values.get? rest name = none := by
      simpa [Values.get?, List.find?_cons, hk] using h
    rw [mergeValues_cons, ih _ hrest]
    exact get?_set_other m k name v (fun h => hk h.symm)

theorem get?_none_of_not_mem (values : Values) (name : String)
    (h : name ∉ values.map Prod.fst) : Values.get? values name = none := by
  induction values with
  | nil => rfl
  | cons kv rest ih =>
    simp only [List.map_cons, List.mem_cons, not_or] at h
    have hk : ¬ kv.1 = name := fun hk => h.1 hk.symm
    simp only [Values.get?, List.find?_cons, hk, decide_False]
    exact ih h.2

/-- A key that `values` holds gets the value of `values` through the merge. -/
theorem mergeValues_get?_captured (m values : Values) (name : String) (v : List String)
    (hnodup : (values.map Prod.fst).Nodup) (h : Values.get? values name = some v) :
    Values.get? (mergeValues m values) name = some v := by
  induction values generalizing m with
  | nil => simp [Values.get?] at h
  | cons kv rest ih =>
    obtain ⟨k, v0⟩ := kv
    simp only [List.map_cons, List.nodup_cons] at hnodup
    rw [mergeValues_cons]
    by_cases hk : k = name
    · subst hk
      have hv : v0 = v := by simpa [Values.get?, List.find?_cons] using h
      subst hv
      rw [mergeValues_get?_other _ _ _ (get?_none_of_not_mem rest k hnodup.1)]
      exact get?_set_self m k v0
    · have hrest : Values.get? rest name = some v := by
        simpa [Values.get?, List.find?_cons, hk] using h
      exact ih _ hnodup.2 hrest

/-! ## Lemmas on the filter loop -/

/-- The filter loop only appends to the trace, and what it appends are filter
and log events. -/
theorem runBeforeFilters_trace (filters : List BeforeFilterFunc) (i : Nat) (s : ServeState) :
    ∃ t, (runBeforeFilters filters i s).1.trace = s.trace ++ t ∧
      (∀ e ∈ t, e.isFilter = true ∨ e.isLog = true) ∧
      (∀ f rest, filters = f :: rest → ∃ t2, t = Event.Filter i s.r :: t2) := by
  induction filters generalizing i s with
  | nil => exact ⟨[], by simp [runBeforeFilters], by simp, by simp⟩
  | cons f rest ih =>
    obtain ⟨t1, ht1, hlog1, _⟩ := runEffects_trace (s.emit (Event.Filter i s.r)) (f s.r).1
    have hlog1b : ∀ e ∈ Event.Filter i s.r :: t1, e.isFilter = true ∨ e.isLog = true := by
      intro e he
      rcases List.mem_cons.mp he with rfl | he
      · exact Or.inl rfl
      · exact Or.inr (hlog1 e he)
    simp only [runBeforeFilters]
    split
    · refine ⟨Event.Filter i s.r :: t1, ?_, hlog1b, fun _ _ _ => ⟨t1, rfl⟩⟩
      simp only [ServeState.emit] at ht1 ⊢
      rw [ht1]
      simp
    · obtain ⟨t2, ht2, hlog2, _⟩ :=
        ih (i + 1) (runEffects (s.emit (Event.Filter i s.r)) (f (s.emit (Event.Filter i s.r)).r).1)
      refine ⟨Event.Filter i s.r :: (t1 ++ t2), ?_, ?_, fun _ _ _ => ⟨t1 ++ t2, rfl⟩⟩
      · rw [ht2]
        simp only [ServeState.emit] at ht1 ⊢
        rw [ht1]
        simp
      · intro e he
        rcases List.mem_cons.mp he with rfl | he
        · exact Or.inl rfl
        · rcases List.mem_append.mp he with he | he
          · exact Or.inr (hlog1 e he)
          · exact hlog2 e he

theorem Flush_trace_ext (s2 : ServeState) (pre : List Event) (e : Event) (t : List Event)
    (h : s2.trace = pre ++ e :: t) : ∃ rest, (Flush s2).trace = pre ++ e :: rest :=
  ⟨t ++ [Event.Log (flushStatus s2.lrw.statusCode) s2.r], by simp [Flush, h]⟩

/-- The matched branch calls first the first before-filter, or the handler
when the chain is empty, with the request whose query has been rewritten. -/
theorem serveMatched_first (env : Env) (router : Router) (route : Route) (k : Nat)
    (values : Values) (s : ServeState) :
    ∃ rest, (serveMatched env router route k values s).trace =
      s.trace ++
        (if router.beforeFilters.isEmpty then Event.Handler k (rewriteQuery env s.r values)
          else Event.Filter 0 (rewriteQuery env s.r values)) :: rest := by
  cases hfs : router.beforeFilters with
  | nil =>
    obtain ⟨t, ht, _, _⟩ :=
      runEffects_trace (ServeState.emit { s with r := rewriteQuery env s.r values }
        (Event.Handler k (rewriteQuery env s.r values)))
        (route.Handler (rewriteQuery env s.r values))
    simp only [serveMatched, hfs, runBeforeFilters, if_true, List.isEmpty_nil]
    apply Flush_trace_ext _ _ _ t
    rw [ht]
    simp [ServeState.emit]
  | cons f fs =>
    obtain ⟨t, ht, _, hfirst⟩ :=
      runBeforeFilters_trace (f :: fs) 0 { s with r := rewriteQuery env s.r values }
    obtain ⟨t2, rfl⟩ := hfirst f fs rfl
    simp only [serveMatched, hfs, List.isEmpty_cons, Bool.false_eq_true, if_false]
    split
    · obtain ⟨t3, ht3, _, _⟩ :=
        runEffects_trace (ServeState.emit
          (runBeforeFilters (f :: fs) 0 { s with r := rewriteQuery env s.r values }).1
          (Event.Handler k
            (runBeforeFilters (f :: fs) 0 { s with r := rewriteQuery env s.r values }).1.r))
          (route.Handler
            (runBeforeFilters (f :: fs) 0 { s with r := rewriteQuery env s.r values }).1.r)
      apply Flush_trace_ext _ _ _
        (t2 ++ Event.Handler k
          (runBeforeFilters (f :: fs) 0 { s with r := rewriteQuery env s.r values }).1.r :: t3)
      rw [ht3]
      simp only [ServeState.emit, ht]
      simp
    · apply Flush_trace_ext _ _ _ t2
      rw [ht]

/-! ## Lemmas on the order of the filter calls -/

theorem list_split_at {α : Type} (l : List α) (n : Nat) (a : α) (h : l[n]? = some a) :
    l = l.take n ++ a :: l.drop (n + 1) ∧ (l.take n).length = n := by
  have hlt : n < l.length := by
    rcases Nat.lt_or_ge n l.length with h2 | h2
    · exact h2
    · rw [List.getElem?_eq_none h2] at h
      cases h
  have hget : l[n] = a := by
    rw [List.getElem?_eq_getElem hlt] at h
    exact Option.some.inj h
  refine ⟨?_, ?_⟩
  · rw [← hget, ← List.drop_eq_getElem_cons hlt, List.take_append_drop]
  · simp [List.length_take, Nat.min_eq_left (Nat.le_of_lt hlt)]

theorem runBeforeFilters_cons (f : BeforeFilterFunc) (rest : List BeforeFilterFunc) (i : Nat)
    (s : ServeState) :
    runBeforeFilters (f :: rest) i s =
      if (f s.r).2 then
        runBeforeFilters rest (i + 1) (runEffects (s.emit (Event.Filter i s.r)) (f s.r).1)
      else (runEffects (s.emit (Event.Filter i s.r)) (f s.r).1, false) := by
  simp only [runBeforeFilters, ServeState.emit]
  cases (f s.r).2 <;> rfl

theorem runBeforeFilters_init_pass (pre post : List BeforeFilterFunc) (i : Nat)
    (s : ServeState) (h : (runBeforeFilters (pre ++ post) i s).2 = true) :
    (runBeforeFilters pre i s).2 = true := by
  induction pre generalizing i s with
  | nil => rfl
  | cons f pre ih =>
    rw [List.cons_append, runBeforeFilters_cons] at h
    rw [runBeforeFilters_cons]
    cases hf : (f s.r).2
    · simp [hf] at h
    · simp only [hf, if_true] at h ⊢
      exact ih _ _ h

theorem runBeforeFilters_append (pre post : List BeforeFilterFunc) (i : Nat) (s : ServeState)
    (h : (runBeforeFilters pre i s).2 = true) :
    runBeforeFilters (pre ++ post) i s =
      runBeforeFilters post (i + pre.length) (runBeforeFilters pre i s).1 := by
  induction pre generalizing i s with
  | nil => simp [runBeforeFilters]
  | cons f pre ih =>
    rw [runBeforeFilters_cons] at h
    rw [List.cons_append, runBeforeFilters_cons, runBeforeFilters_cons]
    cases hf : (f s.r).2
    · simp [hf] at h
    · simp only [hf, if_true] at h ⊢
      rw [ih _ _ h]
      simp [Nat.add_assoc, Nat.add_comm 1]

theorem runBeforeFilters_single (f : BeforeFilterFunc) (i : Nat) (s : ServeState) :
    (runBeforeFilters [f] i s).1.trace.filter Event.isCall =
      s.trace.filter Event.isCall ++ [Event.Filter i s.r] ∧
    (runBeforeFilters [f] i s).2 = (f s.r).2 := by
  have he := runEffects_filter Event.isCall (fun _ _ => rfl) (s.emit (Event.Filter i s.r)) (f s.r).1
  simp only [runBeforeFilters]
  split
  · rename_i hf
    refine ⟨?_, by simpa using hf⟩
    simp only [ServeState.emit] at he ⊢
    rw [he]
    simp [Event.isCall, Event.isFilter]
  · rename_i hf
    refine ⟨?_, by simpa using hf⟩
    simp only [ServeState.emit] at he ⊢
    rw [he]
    simp [Event.isCall, Event.isFilter]

/-- A filter chain that runs to its end calls every filter, in chain order. -/
theorem runBeforeFilters_calls (filters : List BeforeFilterFunc) (i : Nat) (s : ServeState)
    (h : (runBeforeFilters filters i s).2 = true) :
    (runBeforeFilters filters i s).1.trace.filter Event.isCall =
      s.trace.filter Event.isCall ++
        (List.range filters.length).map
          (fun j => Event.Filter (i + j) (runBeforeFilters (filters.take j) i s).1.r) := by
  induction filters using List.reverseRecOn with
  | nil => simp [runBeforeFilters]
  | append_singleton init f ih =>
    have hinit := runBeforeFilters_init_pass init [f] i s h
    rw [runBeforeFilters_append init [f] i s hinit,
      (runBeforeFilters_single f _ _).1, ih hinit]
    simp only [List.length_append, List.length_singleton, List.range_succ, List.map_append,
      List.map_cons, List.map_nil, List.append_assoc, List.take_left']
    congr 1
    congr 1
    apply List.map_congr_left
    intro j hj
    rw [List.take_append_of_le_length (Nat.le_of_lt (List.mem_range.mp hj))]

/-- A chain whose filter number `n` is the first to return false calls the
filters `0 .. n` in order, and no other. -/
theorem runBeforeFilters_stop (filters : List BeforeFilterFunc) (n : Nat)
    (f : BeforeFilterFunc) (s : ServeState) (hf : filters[n]? = some f)
    (hpre : (runBeforeFilters (filters.take n) 0 s).2 = true)
    (hstop : (f (runBeforeFilters (filters.take n) 0 s).1.r).2 = false) :
    (runBeforeFilters filters 0 s).2 = false ∧
    (runBeforeFilters filters 0 s).1.trace.filter Event.isCall =
      s.trace.filter Event.isCall ++
        (List.range (n + 1)).map
          (fun j => Event.Filter j (runBeforeFilters (filters.take j) 0 s).1.r) := by
  obtain ⟨hsplit, hlen⟩ := list_split_at filters n f hf
  have hrun : runBeforeFilters filters 0 s =
      runBeforeFilters (f :: filters.drop (n + 1)) n (runBeforeFilters (filters.take n) 0 s).1 := by
    conv_lhs => rw [hsplit]
    rw [runBeforeFilters_append _ _ 0 s hpre, hlen, Nat.zero_add]
  have hcalls := runBeforeFilters_calls (filters.take n) 0 s hpre
  have he := runEffects_filter Event.isCall (fun _ _ => rfl)
    ((runBeforeFilters (filters.take n) 0 s).1.emit
      (Event.Filter n (runBeforeFilters (filters.take n) 0 s).1.r))
    (f (runBeforeFilters (filters.take n) 0 s).1.r).1
  rw [hrun]
  simp only [runBeforeFilters, ServeState.emit, hstop, Bool.not_false, if_true, true_and]
  simp only [ServeState.emit] at he
  rw [he, List.filter_append, hcalls, hlen]
  simp only [List.range_succ, List.map_append, List.map_cons, List.map_nil, List.append_assoc,
    Nat.zero_add]
  congr 1
  congr 1
  apply List.map_congr_left
  intro j hj
  rw [List.take_take, Nat.min_eq_left (Nat.le_of_lt (List.mem_range.mp hj))]

/-- The matched branch of `ServeHTTP` in terms of `filterEntry`. -/
theorem ServeHTTP_matched (env : Env) (router : Router) (w : ResponseWriter) (r : Request)
    (k : Nat) (route : Route)
    (hfm : FirstMatch env (router.lookup r.Method) r.URL.Path k route) :
    ServeHTTP env router w r =
      Flush
        (if (runBeforeFilters router.beforeFilters 0 (filterEntry env router w r k route)).2 then
          runEffects
            ((runBeforeFilters router.beforeFilters 0 (filterEntry env router w r k route)).1.emit
              (Event.Handler k
                (runBeforeFilters router.beforeFilters 0
                  (filterEntry env router w r k route)).1.r))
            (route.Handler
              (runBeforeFilters router.beforeFilters 0 (filterEntry env router w r k route)).1.r)
        else (runBeforeFilters router.beforeFilters 0 (filterEntry env router w r k route)).1) := by
  rw [ServeHTTP_of_firstMatch env router w r k route hfm]
  rfl

theorem Flush_calls (s : ServeState) :
    (Flush s).trace.filter Event.isCall = s.trace.filter Event.isCall := by
  simp [Flush, Event.isCall, Event.isFilter, Event.isHandler]

theorem filterEntry_calls (env : Env) (router : Router) (w : ResponseWriter) (r : Request)
    (k : Nat) (route : Route) :
    (filterEntry env router w r k route).trace.filter Event.isCall = [] :=
  matchEvents_filter Event.isCall (fun _ _ => rfl) 0 (k + 1) r.URL.Path

/-! ## Lemmas on the log callback -/

theorem runEffects_quiet (s : ServeState) (effects : List Effect)
    (h : Effect.Flush ∉ effects) :
    (runEffects s effects).trace = s.trace ∧ (runEffects s effects).stdout = s.stdout := by
  induction effects generalizing s with
  | nil => exact ⟨rfl, rfl⟩
  | cons e rest ih =>
    have hrest : Effect.Flush ∉ rest := fun h2 => h (List.mem_cons_of_mem _ h2)
    rw [runEffects_cons, (ih (runEffect s e) hrest).1, (ih (runEffect s e) hrest).2]
    cases e with
    | WriteHeader c => exact ⟨rfl, rfl⟩
    | Write d => exact ⟨rfl, rfl⟩
    | SetRequest q => exact ⟨rfl, rfl⟩
    | Add m p h0 => exact ⟨rfl, rfl⟩
    | Get p h0 => exact ⟨rfl, rfl⟩
    | AddBeforeFilter f => exact ⟨rfl, rfl⟩
    | SetNotFoundHandler h0 => exact ⟨rfl, rfl⟩
    | SetRequestLogFunc l => exact ⟨rfl, rfl⟩
    | Flush => exact absurd (List.mem_cons_self _ _) h

theorem runBeforeFilters_log (filters : List BeforeFilterFunc) (i : Nat) (s : ServeState) :
    (runBeforeFilters filters i s).1.lrw.log = s.lrw.log := by
  induction filters generalizing i s with
  | nil => rfl
  | cons f rest ih =>
    simp only [runBeforeFilters]
    split
    · rw [runEffects_log]
      rfl
    · rw [ih, runEffects_log]
      rfl

/-- Filters that do not call `Flush` leave the log calls and the log output
as they are. -/
theorem runBeforeFilters_quiet (filters : List BeforeFilterFunc) (i : Nat) (s : ServeState)
    (h : ∀ f ∈ filters, ∀ req, Effect.Flush ∉ (f req).1) :
    (runBeforeFilters filters i s).1.trace.filter Event.isLog = s.trace.filter Event.isLog ∧
      (runBeforeFilters filters i s).1.stdout = s.stdout := by
  induction filters generalizing i s with
  | nil => exact ⟨rfl, rfl⟩
  | cons f rest ih =>
    have hf := runEffects_quiet (s.emit (Event.Filter i s.r)) (f s.r).1
      (h f (List.mem_cons_self _ _) s.r)
    have hrest : ∀ g ∈ rest, ∀ req, Effect.Flush ∉ (g req).1 :=
      fun g hg => h g (List.mem_cons_of_mem _ hg)
    simp only [runBeforeFilters]
    split
    · simp only [ServeState.emit] at hf ⊢
      rw [hf.1, hf.2]
      simp [Event.isLog]
    · have := ih (i + 1) (runEffects (s.emit (Event.Filter i s.r)) (f s.r).1) hrest
      simp only [ServeState.emit] at hf this ⊢
      rw [this.1, this.2, hf.1, hf.2]
      simp [Event.isLog]

theorem Flush_logs (s : ServeState) :
    (Flush s).trace.filter Event.isLog =
      s.trace.filter Event.isLog ++ [Event.Log (flushStatus (Flush s).lrw.statusCode) (Flush s).r] ∧
    (Flush s).stdout =
      s.stdout ++ [s.lrw.log (flushStatus (Flush s).lrw.statusCode) (Flush s).r] := by
  simp [Flush, Event.isLog]

/-- The matched branch logs once when filters and handler do not call `Flush`. -/
theorem serveMatched_logs (env : Env) (router : Router) (route : Route) (k : Nat)
    (values : Values) (s : ServeState)
    (hfilters : ∀ f ∈ router.beforeFilters, ∀ req, Effect.Flush ∉ (f req).1)
    (hhandler : ∀ req, Effect.Flush ∉ route.Handler req) :
    (serveMatched env router route k values s).trace.filter Event.isLog =
      s.trace.filter Event.isLog ++
        [Event.Log (flushStatus (serveMatched env router route k values s).lrw.statusCode)
          (serveMatched env router route k values s).r] ∧
    (serveMatched env router route k values s).stdout =
      s.stdout ++
        [s.lrw.log (flushStatus (serveMatched env router route k values s).lrw.statusCode)
          (serveMatched env router route k values s).r] := by
  have hq := runBeforeFilters_quiet router.beforeFilters 0
    { s with r := rewriteQuery env s.r values } hfilters
  have hl := runBeforeFilters_log router.beforeFilters 0
    { s with r := rewriteQuery env s.r values }
  unfold serveMatched
  simp only
  split
  · have he := runEffects_quiet
      ((runBeforeFilters router.beforeFilters 0 { s with r := rewriteQuery env s.r values }).1.emit
        (Event.Handler k
          (runBeforeFilters router.beforeFilters 0
            { s with r := rewriteQuery env s.r values }).1.r))
      (route.Handler
        (runBeforeFilters router.beforeFilters 0 { s with r := rewriteQuery env s.r values }).1.r)
      (hhandler _)
    refine ⟨?_, ?_⟩
    · rw [(Flush_logs _).1, he.1]
      simp only [ServeState.emit, List.filter_append, hq.1]
      simp [Event.isLog]
    · rw [(Flush_logs _).2, he.2, runEffects_log]
      simp only [ServeState.emit, hq.2, hl]
  · refine ⟨?_, ?_⟩
    · rw [(Flush_logs _).1, hq.1]
    · rw [(Flush_logs _).2, hq.2, hl]

/-- The not-found branch logs once when the not-found handler does not call
`Flush`. -/
theorem serveNotFound_logs (router : Router) (s : ServeState)
    (hnotFound : ∀ h, router.NotFoundHandler = some h → ∀ req, Effect.Flush ∉ h req) :
    (serveNotFound router s).trace.filter Event.isLog =
      s.trace.filter Event.isLog ++
        [Event.Log (flushStatus (serveNotFound router s).lrw.statusCode)
          (serveNotFound router s).r] ∧
    (serveNotFound router s).stdout =
      s.stdout ++
        [s.lrw.log (flushStatus (serveNotFound router s).lrw.statusCode)
          (serveNotFound router s).r] := by
  unfold serveNotFound
  cases hnf : router.NotFoundHandler with
  | none =>
    simp only
    refine ⟨?_, ?_⟩
    · rw [(Flush_logs _).1]
      rfl
    · rw [(Flush_logs _).2]
      rfl
  | some h =>
    simp only
    have he := runEffects_quiet (s.emit (Event.NotFound s.r)) (h s.r) (hnotFound h hnf s.r)
    refine ⟨?_, ?_⟩
    · rw [(Flush_logs _).1, he.1]
      simp [ServeState.emit, Event.isLog]
    · rw [(Flush_logs _).2, he.2, runEffects_log]
      rfl

/-! ## Claims -/

/-- C1. First registration wins.  When entries `i < j` of the method's sequence
both match the request path, the first matching entry `k` is at or before
`i`; every handler call of `ServeHTTP` is a call of entry `k`, so the handler
of entry `j` is never called; when all before-filters return true the handler
of entry `k` is called exactly once; and `k` is `i` itself when no entry
before `i` matches. -/
theorem first_registration_wins (env : Env) (router : Router) (w : ResponseWriter)
    (r : Request) (i j : Nat) (R1 R2 : Route)
    (h1 : (router.lookup r.Method)[i]? = some R1)
    (h2 : (router.lookup r.Method)[j]? = some R2)
    (hij : i < j)
    (hm1 : (env.Match R1 r.URL.Path).2 = true)
    (hm2 : (env.Match R2 r.URL.Path).2 = true) :
    ∃ k route, FirstMatch env (router.lookup r.Method) r.URL.Path k route ∧ k ≤ i ∧
      (∀ e ∈ (ServeHTTP env router w r).trace, e.isHandler = true →
        ∃ req, e = Event.Handler k req) ∧
      (∀ req, Event.Handler j req ∉ (ServeHTTP env router w r).trace) ∧
      ((∀ f ∈ router.beforeFilters, ∀ req, (f req).2 = true) →
        ∃ req, (ServeHTTP env router w r).trace.filter Event.isHandler =
          [Event.Handler k req]) ∧
      ((∀ l R, l < i → (router.lookup r.Method)[l]? = some R →
          (env.Match R r.URL.Path).2 = false) → k = i ∧ route = R1) := by
  obtain ⟨k, route, hfm, hki⟩ := exists_firstMatch env _ _ i R1 h1 hm1
  have hserve := ServeHTTP_of_firstMatch env router w r k route hfm
  have hh := serveMatched_handlers env router route k (env.Match route r.URL.Path).1
    { initState router w r with trace := matchEvents 0 (k + 1) r.URL.Path }
  rw [← hserve] at hh
  simp only [matchEvents_filter Event.isHandler (fun _ _ => rfl), List.nil_append] at hh
  have honly : ∀ e ∈ (ServeHTTP env router w r).trace, e.isHandler = true →
      ∃ req, e = Event.Handler k req := by
    intro e he hise
    have hmem : e ∈ (ServeHTTP env router w r).trace.filter Event.isHandler :=
      List.mem_filter.mpr ⟨he, hise⟩
    rw [hh] at hmem
    split at hmem
    · exact ⟨_, by simpa using hmem⟩
    · simp at hmem
  refine ⟨k, route, hfm, hki, honly, ?_, ?_, ?_⟩
  · intro req hj
    obtain ⟨req2, hreq2⟩ := honly _ hj rfl
    simp only [Event.Handler.injEq] at hreq2
    omega
  · intro hpass
    rw [hh, runBeforeFilters_pass _ _ _ hpass]
    exact ⟨_, rfl⟩
  · intro hnone
    have hk : k = i := by
      rcases Nat.lt_or_ge k i with hlt | hge
      · have := hnone k route hlt hfm.1
        rw [hfm.2.1] at this
        cases this
      · omega
    subst hk
    refine ⟨rfl, ?_⟩
    have := hfm.1
    rw [h1] at this
    exact (Option.some.inj this).symm

/-- C1 at `GET /users/42` on `exampleRouter`, where both entries match: only
the handler of entry 0 is called. -/
theorem first_registration_wins_witness :
    (∃ req, (ServeHTTP plainEnv exampleRouter [] exampleRequest).trace.filter Event.isHandler =
      [Event.Handler 0 req]) ∧
    ∀ req, Event.Handler 1 req ∉ (ServeHTTP plainEnv exampleRouter [] exampleRequest).trace := by
  obtain ⟨k, _, _, hk, _, hnever, hpass, _⟩ :=
    first_registration_wins plainEnv exampleRouter [] exampleRequest 0 1
      (NewRoute "/users/:id" (writeBody "by id")) (NewRoute "/users/42" (writeBody "exact"))
      rfl rfl (by decide) (by decide) (by decide)
  have hk0 : k = 0 := by omega
  subst hk0
  exact ⟨hpass (by simp [exampleRouter, Router.Get, Router.Add, Router.addRoute, New]), hnever⟩

/-- C2 fails on the code.  With route `/users/:id` and request
`GET /users/42?id=7` the query holds `id = [7]` and `Match` binds `id` to
`[42]`; after the merge `id` holds `[42]`, not `[7, 42]`, and the handler is
called with the query `id=42`. -/
theorem capture_appended_counterexample :
    Values.get? (plainEnv.Query exampleRequest.URL.RawQuery) "id" = some ["7"] ∧
    plainEnv.Match (NewRoute "/users/:id" (writeBody "by id")) exampleRequest.URL.Path =
      ([("id", ["42"])], true) ∧
    Values.get? (mergeValues (plainEnv.Query exampleRequest.URL.RawQuery) [("id", ["42"])]) "id" =
      some ["42"] ∧
    Values.get? (mergeValues (plainEnv.Query exampleRequest.URL.RawQuery) [("id", ["42"])]) "id" ≠
      some ["7", "42"] ∧
    (ServeHTTP plainEnv exampleRouter [] exampleRequest).trace =
      [Event.Match 0 "/users/42",
       Event.Handler 0 { Method := "GET", URL := { Path := "/users/42", RawQuery := "id=42" } },
       Event.Log 200 { Method := "GET", URL := { Path := "/users/42", RawQuery := "id=42" } }] := by
  decide

/-- C2, amended.  When entry `k` is the first match and `Match` binds `name` to
`v`, the merged query holds exactly `v` under `name` (the values the query
held under `name` are replaced), every key that `Match` does not bind keeps
its values, the request's `RawQuery` becomes the encoding of the merged query
while method and path stay, and the first filter (the handler, when there is
no filter) is called with that request. -/
theorem capture_replaces_query_values (env : Env) (router : Router) (w : ResponseWriter)
    (r : Request) (k : Nat) (route : Route) (name : String) (v : List String)
    (hfm : FirstMatch env (router.lookup r.Method) r.URL.Path k route)
    (hnodup : ((env.Match route r.URL.Path).1.map Prod.fst).Nodup)
    (hcap : Values.get? (env.Match route r.URL.Path).1 name = some v) :
    Values.get? (mergeValues (env.Query r.URL.RawQuery) (env.Match route r.URL.Path).1) name =
      some v ∧
    (∀ other, Values.get? (env.Match route r.URL.Path).1 other = none →
      Values.get? (mergeValues (env.Query r.URL.RawQuery) (env.Match route r.URL.Path).1) other =
        Values.get? (env.Query r.URL.RawQuery) other) ∧
    rewriteQuery env r (env.Match route r.URL.Path).1 =
      { Method := r.Method
        URL := { Path := r.URL.Path
                 RawQuery := env.Encode
                   (mergeValues (env.Query r.URL.RawQuery) (env.Match route r.URL.Path).1) } } ∧
    ∃ rest, (ServeHTTP env router w r).trace =
      matchEvents 0 (k + 1) r.URL.Path ++
        (if router.beforeFilters.isEmpty
          then Event.Handler k (rewriteQuery env r (env.Match route r.URL.Path).1)
          else Event.Filter 0 (rewriteQuery env r (env.Match route r.URL.Path).1)) :: rest := by
  refine ⟨mergeValues_get?_captured _ _ _ _ hnodup hcap,
    fun other h => mergeValues_get?_other _ _ _ h, rfl, ?_⟩
  rw [ServeHTTP_of_firstMatch env router w r k route hfm]
  exact serveMatched_first env router route k (env.Match route r.URL.Path).1
    { initState router w r with trace := matchEvents 0 (k + 1) r.URL.Path }

/-- C2, amended, at `GET /users/42?id=7` on `exampleRouter`: `id` holds `[42]`
after the merge. -/
theorem capture_replaces_query_values_witness :
    Values.get?
      (mergeValues (plainEnv.Query "id=7")
        (plainEnv.Match (NewRoute "/users/:id" (writeBody "by id")) "/users/42").1) "id" =
      some ["42"] :=
  (capture_replaces_query_values plainEnv exampleRouter [] exampleRequest 0
    (NewRoute "/users/:id" (writeBody "by id")) "id" ["42"]
    ⟨rfl, by decide, fun l R hl _ => absurd hl (Nat.not_lt_zero l)⟩
    (by decide) (by decide)).1

/-- C3. One call of `ServeHTTP` calls the log callback exactly once, whatever
the router and the request, when no filter, no handler of the method's
sequence and no not-found handler calls `Flush` itself: the trace holds one
log event, with the final status and request, and the callback's output is
the only output. -/
theorem log_exactly_once (env : Env) (router : Router) (w : ResponseWriter) (r : Request)
    (hfilters : ∀ f ∈ router.beforeFilters, ∀ req, Effect.Flush ∉ (f req).1)
    (hhandlers : ∀ route ∈ router.lookup r.Method, ∀ req, Effect.Flush ∉ route.Handler req)
    (hnotFound : ∀ h, router.NotFoundHandler = some h → ∀ req, Effect.Flush ∉ h req) :
    (ServeHTTP env router w r).trace.countP Event.isLog = 1 ∧
    (ServeHTTP env router w r).trace.filter Event.isLog =
      [Event.Log (flushStatus (ServeHTTP env router w r).lrw.statusCode)
        (ServeHTTP env router w r).r] ∧
    (ServeHTTP env router w r).stdout =
      [router.RequestLogFunc (flushStatus (ServeHTTP env router w r).lrw.statusCode)
        (ServeHTTP env router w r).r] := by
  have key : (ServeHTTP env router w r).trace.filter Event.isLog =
      [Event.Log (flushStatus (ServeHTTP env router w r).lrw.statusCode)
        (ServeHTTP env router w r).r] ∧
    (ServeHTTP env router w r).stdout =
      [router.RequestLogFunc (flushStatus (ServeHTTP env router w r).lrw.statusCode)
        (ServeHTTP env router w r).r] := by
    rcases Classical.em (∃ (i : Nat) (R : Route), (router.lookup r.Method)[i]? = some R ∧
        (env.Match R r.URL.Path).2 = true) with hex | hex
    · obtain ⟨i, R, hi, hm⟩ := hex
      obtain ⟨k, route, hfm, _⟩ := exists_firstMatch env _ _ i R hi hm
      have hmem : route ∈ router.lookup r.Method := List.getElem?_mem hfm.1
      have := serveMatched_logs env router route k (env.Match route r.URL.Path).1
        { initState router w r with trace := matchEvents 0 (k + 1) r.URL.Path }
        hfilters (hhandlers route hmem)
      rw [← ServeHTTP_of_firstMatch env router w r k route hfm] at this
      simpa [matchEvents_filter Event.isLog (fun _ _ => rfl), initState] using this
    · have hnone : ∀ R ∈ router.lookup r.Method, (env.Match R r.URL.Path).2 = false := by
        intro R hR
        obtain ⟨i, hi, hiR⟩ := List.getElem_of_mem hR
        by_contra hne
        exact hex ⟨i, R, by rw [List.getElem?_eq_getElem hi, hiR], by simpa using hne⟩
      have := serveNotFound_logs router
        { initState router w r with
          trace := matchEvents 0 (router.lookup r.Method).length r.URL.Path } hnotFound
      rw [← ServeHTTP_of_noMatch env router w r hnone] at this
      simpa [matchEvents_filter Event.isLog (fun _ _ => rfl), initState] using this
  refine ⟨?_, key⟩
  rw [List.countP_eq_length_filter, key.1]
  rfl

/-- C3 at `GET /users/42?id=7` on `exampleRouter`: one log call. -/
theorem log_exactly_once_witness :
    (ServeHTTP plainEnv exampleRouter [] exampleRequest).trace.countP Event.isLog = 1 :=
  (log_exactly_once plainEnv exampleRouter [] exampleRequest
    (by simp [exampleRouter, Router.Get, Router.Add, Router.addRoute, New])
    (by
      intro route hroute req
      have : route = NewRoute "/users/:id" (writeBody "by id") ∨
          route = NewRoute "/users/42" (writeBody "exact") := by
        simpa [exampleRouter, exampleRequest, Router.Get, Router.Add, Router.addRoute, New,
          Router.lookup] using hroute
      rcases this with rfl | rfl <;> simp [NewRoute, writeBody])
    (by simp [exampleRouter, Router.Get, Router.Add, Router.addRoute, New])).1

/-- C4. `AddBeforeFilter` appends to the chain, and for a request whose first
match is entry `k` the calls of filters and handler are, in order: when
filter number `i` is the first to return false, the filters `0 .. i` and
nothing else (no later filter, no handler); when every filter returns true,
all the filters of the chain and then the handler of entry `k`, once. -/
theorem before_filters_in_order (env : Env) (router : Router) (w : ResponseWriter)
    (r : Request) (k : Nat) (route : Route)
    (hfm : FirstMatch env (router.lookup r.Method) r.URL.Path k route) :
    (∀ f, (router.AddBeforeFilter f).beforeFilters = router.beforeFilters ++ [f]) ∧
    (∀ i f, router.beforeFilters[i]? = some f →
      (runBeforeFilters (router.beforeFilters.take i) 0
        (filterEntry env router w r k route)).2 = true →
      (f (requestAtFilter env router w r k route i)).2 = false →
      (ServeHTTP env router w r).trace.filter Event.isCall =
        (List.range (i + 1)).map
          (fun j => Event.Filter j (requestAtFilter env router w r k route j))) ∧
    ((runBeforeFilters router.beforeFilters 0 (filterEntry env router w r k route)).2 = true →
      (ServeHTTP env router w r).trace.filter Event.isCall =
        (List.range router.beforeFilters.length).map
          (fun j => Event.Filter j (requestAtFilter env router w r k route j)) ++
        [Event.Handler k
          (requestAtFilter env router w r k route router.beforeFilters.length)]) := by
  refine ⟨fun f => rfl, ?_, ?_⟩
  · intro i f hf hpre hstop
    obtain ⟨hfalse, hcalls⟩ := runBeforeFilters_stop router.beforeFilters i f
      (filterEntry env router w r k route) hf hpre hstop
    rw [ServeHTTP_matched env router w r k route hfm, Flush_calls, hfalse]
    simp only [Bool.false_eq_true, if_false]
    rw [hcalls, filterEntry_calls, List.nil_append]
    rfl
  · intro hpass
    have hcalls := runBeforeFilters_calls router.beforeFilters 0
      (filterEntry env router w r k route) hpass
    rw [ServeHTTP_matched env router w r k route hfm, Flush_calls, hpass]
    simp only [if_true]
    rw [runEffects_filter Event.isCall (fun _ _ => rfl)]
    simp only [ServeState.emit, List.filter_append, hcalls, filterEntry_calls, List.nil_append,
      Nat.zero_add, requestAtFilter, List.take_length]
    simp [Event.isCall, Event.isHandler]

/-- C4 at `GET /users/42?id=7` on `guardedRouter`, whose second filter returns
false: the first two filters are called, the third filter and the handler
are not. -/
theorem before_filters_in_order_witness :
    (ServeHTTP plainEnv guardedRouter [] exampleRequest).trace.filter Event.isCall =
      [Event.Filter 0 { Method := "GET", URL := { Path := "/users/42", RawQuery := "id=42" } },
       Event.Filter 1 { Method := "GET", URL := { Path := "/users/42", RawQuery := "id=42" } }] :=
  ((before_filters_in_order plainEnv guardedRouter [] exampleRequest 0
      (NewRoute "/users/:id" (writeBody "by id"))
      ⟨rfl, by decide, fun l R hl _ => absurd hl (Nat.not_lt_zero l)⟩).2.1
    1 (fun _ => ([Effect.WriteHeader 403], false)) rfl (by decide) rfl).trans (by decide)

/-- C5 fails on the code.  After `WriteHeader(404)` and then `WriteHeader(0)`
on a fresh wrapper the most recent status is 0, and `Flush` calls the log
callback with 200; the same holds for a handler run by `ServeHTTP`. -/
theorem flush_last_status_counterexample :
    lastStatus [Effect.WriteHeader 404, Effect.WriteHeader 0] = some 0 ∧
    (runEffects (initState (New plainEnv) [] missingRequest)
      [Effect.WriteHeader 404, Effect.WriteHeader 0]).lrw.statusCode = 0 ∧
    (Flush (runEffects (initState (New plainEnv) [] missingRequest)
      [Effect.WriteHeader 404, Effect.WriteHeader 0])).trace = [Event.Log 200 missingRequest] ∧
    (ServeHTTP plainEnv
      ((New plainEnv).Get "/missing" (fun _ => [Effect.WriteHeader 404, Effect.WriteHeader 0])).1 []
      missingRequest).trace =
      [Event.Match 0 "/missing", Event.Handler 0 missingRequest, Event.Log 200 missingRequest] := by
  decide

/-- C5, amended.  On a wrapper that was fresh before the effects of a callable,
`Flush` calls the log callback once more, with the request and with the
status of the most recent `WriteHeader` when that status is not 0, and with
200 when `WriteHeader` was never called or was last called with 0. -/
theorem flush_reports_last_nonzero_status (s : ServeState) (effects : List Effect)
    (hfresh : s.lrw.statusCode = 0) :
    (Flush (runEffects s effects)).trace =
      (runEffects s effects).trace ++
        [Event.Log (reportedStatus (lastStatus effects)) (runEffects s effects).r] ∧
    (Flush (runEffects s effects)).stdout =
      (runEffects s effects).stdout ++
        [s.lrw.log (reportedStatus (lastStatus effects)) (runEffects s effects).r] ∧
    (lastStatus effects = none → reportedStatus (lastStatus effects) = 200) ∧
    (∀ c, lastStatus effects = some c → c ≠ 0 → reportedStatus (lastStatus effects) = c) ∧
    (lastStatus effects = some 0 → reportedStatus (lastStatus effects) = 200) := by
  have hstatus : flushStatus (runEffects s effects).lrw.statusCode =
      reportedStatus (lastStatus effects) := by
    rw [runEffects_status, hfresh]
    cases lastStatus effects <;> simp [reportedStatus, flushStatus, StatusOK]
  refine ⟨?_, ?_, ?_, ?_, ?_⟩
  · simp only [Flush, hstatus]
  · simp only [Flush, hstatus, runEffects_log]
  · intro h
    rw [h]
    rfl
  · intro c h hc
    rw [h]
    simp [reportedStatus, hc]
  · intro h
    rw [h]
    rfl

/-- C5, amended, after `WriteHeader(404)` on a fresh wrapper: 404 is logged. -/
theorem flush_reports_last_nonzero_status_witness :
    (Flush (runEffects (initState (New plainEnv) [] missingRequest) [Effect.WriteHeader 404])).trace =
      [Event.Log 404 missingRequest] :=
  (flush_reports_last_nonzero_status (initState (New plainEnv) [] missingRequest)
    [Effect.WriteHeader 404] rfl).1

/-- C6. When no entry of the method's sequence matches and `NotFoundHandler` is
nil, `ServeHTTP` passes to the underlying writer exactly the status 404 and the
text `404 page not found` (which `http.Error` ends with a newline), the
wrapper records 404, no handler, filter or not-found handler is called, the
request is unchanged, and the log callback is called once, with 404 and the
request. -/
theorem default_not_found (env : Env) (router : Router) (w : ResponseWriter) (r : Request)
    (hnone : ∀ R ∈ router.lookup r.Method, (env.Match R r.URL.Path).2 = false)
    (hnil : router.NotFoundHandler = none) :
    (ServeHTTP env router w r).lrw.ResponseWriter =
      w ++ [WriterCall.WriteHeader 404, WriterCall.Write "404 page not found\n"] ∧
    (ServeHTTP env router w r).lrw.statusCode = 404 ∧
    (ServeHTTP env router w r).trace =
      matchEvents 0 (router.lookup r.Method).length r.URL.Path ++ [Event.Log 404 r] ∧
    (∀ e ∈ (ServeHTTP env router w r).trace,
      e.isHandler = false ∧ e.isFilter = false ∧ e.isNotFound = false) ∧
    (ServeHTTP env router w r).r = r ∧
    (ServeHTTP env router w r).stdout = [router.RequestLogFunc 404 r] := by
  have hserve := ServeHTTP_of_noMatch env router w r hnone
  have htrace : (ServeHTTP env router w r).trace =
      matchEvents 0 (router.lookup r.Method).length r.URL.Path ++ [Event.Log 404 r] := by
    rw [hserve]
    simp [serveNotFound, hnil, httpError, Flush, WriteHeader, Write, initState, flushStatus,
      StatusNotFound]
  refine ⟨?_, ?_, htrace, ?_, ?_, ?_⟩
  · rw [hserve]
    simp [serveNotFound, hnil, httpError, Flush, WriteHeader, Write, initState, StatusNotFound]
  · rw [hserve]
    simp [serveNotFound, hnil, httpError, Flush, WriteHeader, Write, StatusNotFound]
  · intro e he
    rw [htrace] at he
    rcases List.mem_append.mp he with he | he
    · have := matchEvents_isMatch _ _ _ e he
      cases e <;> simp [Event.isMatch] at this
      exact ⟨rfl, rfl, rfl⟩
    · simp only [List.mem_singleton] at he
      subst he
      exact ⟨rfl, rfl, rfl⟩
  · rw [hserve]
    simp [serveNotFound, hnil, httpError, Flush, WriteHeader, Write, initState]
  · rw [hserve]
    simp [serveNotFound, hnil, httpError, Flush, WriteHeader, Write, initState, flushStatus,
      StatusNotFound]

/-- C6 on the router of `New`, which has no routes, at `GET /missing`: the
writer gets 404 and the text, and the log callback gets `(404, /missing)`. -/
theorem default_not_found_witness :
    (ServeHTTP plainEnv (New plainEnv) [] missingRequest).lrw.ResponseWriter =
      [WriterCall.WriteHeader 404, WriterCall.Write "404 page not found\n"] ∧
    (ServeHTTP plainEnv (New plainEnv) [] missingRequest).trace = [Event.Log 404 missingRequest] :=
  have h := default_not_found plainEnv (New plainEnv) [] missingRequest
    (by simp [New, Router.lookup]) rfl
  ⟨h.1, h.2.2.1⟩

/-- C7 fails on the code.  With no routes and a not-found handler that calls
`WriteHeader(0)`, the handler is called once and the status it set is 0, yet
the log callback is called with 200. -/
theorem custom_not_found_status_counterexample :
    lastStatus [Effect.WriteHeader 0] = some 0 ∧
    (ServeHTTP plainEnv { New plainEnv with NotFoundHandler := some (fun _ => [Effect.WriteHeader 0]) } []
      missingRequest).lrw.ResponseWriter = [WriterCall.WriteHeader 0] ∧
    (ServeHTTP plainEnv { New plainEnv with NotFoundHandler := some (fun _ => [Effect.WriteHeader 0]) } []
      missingRequest).trace = [Event.NotFound missingRequest, Event.Log 200 missingRequest] := by
  decide

/-- C7, amended.  When no entry of the method's sequence matches and
`NotFoundHandler` is the handler `h`, `ServeHTTP` calls `h` exactly once, with
the request, through the wrapper (which records the status `h` set); the
underlying writer receives the calls of `h` and nothing else, so no default
404; and the last event is the log call, with the final request and with the
status `h` last set when that is not 0, and 200 when `h` set none or last
set 0. -/
theorem custom_not_found (env : Env) (router : Router) (w : ResponseWriter) (r : Request)
    (h : HttpHandleFunc)
    (hnone : ∀ R ∈ router.lookup r.Method, (env.Match R r.URL.Path).2 = false)
    (hsome : router.NotFoundHandler = some h) :
    (ServeHTTP env router w r).trace.filter Event.isNotFound = [Event.NotFound r] ∧
    (ServeHTTP env router w r).lrw.ResponseWriter = w ++ writerCalls (h r) ∧
    (ServeHTTP env router w r).lrw.statusCode = (lastStatus (h r)).getD 0 ∧
    (ServeHTTP env router w r).r = (lastRequest (h r)).getD r ∧
    ∃ t, (ServeHTTP env router w r).trace =
        matchEvents 0 (router.lookup r.Method).length r.URL.Path ++ [Event.NotFound r] ++ t ++
          [Event.Log (reportedStatus (lastStatus (h r))) (ServeHTTP env router w r).r] ∧
      (∀ e ∈ t, e.isLog = true) ∧ (Effect.Flush ∉ h r → t = []) := by
  have hserve : ServeHTTP env router w r =
      Flush (runEffects
        (ServeState.emit { initState router w r with
          trace := matchEvents 0 (router.lookup r.Method).length r.URL.Path } (Event.NotFound r))
        (h r)) := by
    rw [ServeHTTP_of_noMatch env router w r hnone]
    simp only [serveNotFound, hsome]
    rfl
  have hstatus : flushStatus
      (runEffects
        (ServeState.emit { initState router w r with
          trace := matchEvents 0 (router.lookup r.Method).length r.URL.Path } (Event.NotFound r))
        (h r)).lrw.statusCode = reportedStatus (lastStatus (h r)) := by
    rw [runEffects_status]
    cases lastStatus (h r) <;>
      simp [reportedStatus, flushStatus, StatusOK, ServeState.emit, initState]
  obtain ⟨t, ht, hlog, hnil⟩ := runEffects_trace
    (ServeState.emit { initState router w r with
      trace := matchEvents 0 (router.lookup r.Method).length r.URL.Path } (Event.NotFound r))
    (h r)
  refine ⟨?_, ?_, ?_, ?_, t, ?_, hlog, hnil⟩
  · rw [hserve]
    simp only [Flush, List.filter_append]
    rw [runEffects_filter Event.isNotFound (fun _ _ => rfl)]
    simp [ServeState.emit, initState, Event.isNotFound,
      matchEvents_filter Event.isNotFound (fun _ _ => rfl)]
  · rw [hserve]
    simp only [Flush, runEffects_writer]
    rfl
  · rw [hserve]
    simp only [Flush, runEffects_status]
    rfl
  · rw [hserve]
    simp only [Flush, runEffects_request]
    rfl
  · rw [hserve]
    simp only [Flush, hstatus, ht]
    rfl

/-- C7, amended, on the router of `New` with a not-found handler that writes
status 410, at `GET /missing`. -/
theorem custom_not_found_witness :
    (ServeHTTP plainEnv { New plainEnv with NotFoundHandler := some (fun _ => [Effect.WriteHeader 410]) }
      [] missingRequest).lrw.ResponseWriter = [] ++ writerCalls [Effect.WriteHeader 410] :=
  (custom_not_found plainEnv { New plainEnv with NotFoundHandler := some (fun _ => [Effect.WriteHeader 410]) }
    [] missingRequest (fun _ => [Effect.WriteHeader 410]) (by simp [New, Router.lookup]) rfl).2.1

/-- C8. After `Get(path, handler)` the sequences of `GET` and of `HEAD` are the
old ones followed by the one route `Get` returns, so that route is the last
element of both; and when that route is the first match of a path under `GET`
and under `HEAD` and the filters return true, a `GET` and a `HEAD` request
for the path each call exactly one handler, the handler of that same route. -/
theorem get_registers_head (router : Router) (path : String) (handler : HttpHandleFunc) :
    (router.Get path handler).2 = NewRoute path handler ∧
    (router.Get path handler).1.lookup "GET" =
      router.lookup "GET" ++ [(router.Get path handler).2] ∧
    (router.Get path handler).1.lookup "HEAD" =
      router.lookup "HEAD" ++ [(router.Get path handler).2] ∧
    ((router.Get path handler).1.lookup "GET").getLast? = some (router.Get path handler).2 ∧
    ((router.Get path handler).1.lookup "HEAD").getLast? = some (router.Get path handler).2 ∧
    ∀ (env : Env) (w : ResponseWriter) (u : URL) (kG kH : Nat),
      FirstMatch env ((router.Get path handler).1.lookup "GET") u.Path kG
        (router.Get path handler).2 →
      FirstMatch env ((router.Get path handler).1.lookup "HEAD") u.Path kH
        (router.Get path handler).2 →
      (∀ f ∈ router.beforeFilters, ∀ req, (f req).2 = true) →
      (∃ req, (ServeHTTP env (router.Get path handler).1 w
          { Method := "GET", URL := u }).trace.filter Event.isHandler =
          [Event.Handler kG req]) ∧
      (∃ req, (ServeHTTP env (router.Get path handler).1 w
          { Method := "HEAD", URL := u }).trace.filter Event.isHandler =
          [Event.Handler kH req]) ∧
      (((router.Get path handler).1.lookup "GET")[kG]?).map Route.Handler =
        (((router.Get path handler).1.lookup "HEAD")[kH]?).map Route.Handler := by
  have hG : (router.Get path handler).1.lookup "GET" =
      router.lookup "GET" ++ [(router.Get path handler).2] := by
    simp [Router.Get, Router.Add, Router.addRoute, Router.lookup, NewRoute]
  have hH : (router.Get path handler).1.lookup "HEAD" =
      router.lookup "HEAD" ++ [(router.Get path handler).2] := by
    simp [Router.Get, Router.Add, Router.addRoute, Router.lookup, NewRoute]
  refine ⟨rfl, hG, hH, by rw [hG]; simp, by rw [hH]; simp, ?_⟩
  intro env w u kG kH hfG hfH hpass
  have hpass2 : ∀ f ∈ (router.Get path handler).1.beforeFilters, ∀ req, (f req).2 = true :=
    hpass
  refine ⟨?_, ?_, ?_⟩
  · have hh := serveMatched_handlers env (router.Get path handler).1 (router.Get path handler).2
      kG (env.Match (router.Get path handler).2 u.Path).1
      { initState (router.Get path handler).1 w { Method := "GET", URL := u } with
        trace := matchEvents 0 (kG + 1) u.Path }
    rw [← ServeHTTP_of_firstMatch env (router.Get path handler).1 w
      { Method := "GET", URL := u } kG _ hfG] at hh
    rw [hh, runBeforeFilters_pass _ _ _ hpass2]
    simp [matchEvents_filter Event.isHandler (fun _ _ => rfl)]
  · have hh := serveMatched_handlers env (router.Get path handler).1 (router.Get path handler).2
      kH (env.Match (router.Get path handler).2 u.Path).1
      { initState (router.Get path handler).1 w { Method := "HEAD", URL := u } with
        trace := matchEvents 0 (kH + 1) u.Path }
    rw [← ServeHTTP_of_firstMatch env (router.Get path handler).1 w
      { Method := "HEAD", URL := u } kH _ hfH] at hh
    rw [hh, runBeforeFilters_pass _ _ _ hpass2]
    simp [matchEvents_filter Event.isHandler (fun _ _ => rfl)]
  · rw [hfG.1, hfH.1]

/-- C9. After `Add(m, path, handler)` the sequence of `m` is the previous
sequence of `m` followed by the new route, the table entry of every other
method is unchanged, the rest of the router is unchanged, and adding the same
pattern a second time keeps both routes. -/
theorem add_appends (router : Router) (m : HttpMethod) (path : String)
    (handler : HttpHandleFunc) :
    (router.Add m path handler).2 = NewRoute path handler ∧
    (router.Add m path handler).1.lookup m =
      router.lookup m ++ [(router.Add m path handler).2] ∧
    (∀ m2, m2 ≠ m → (router.Add m path handler).1.routes m2 = router.routes m2) ∧
    (∀ m2, m2 ≠ m → (router.Add m path handler).1.lookup m2 = router.lookup m2) ∧
    (router.Add m path handler).1.beforeFilters = router.beforeFilters ∧
    (router.Add m path handler).1.NotFoundHandler = router.NotFoundHandler ∧
    (router.Add m path handler).1.RequestLogFunc = router.RequestLogFunc ∧
    ((router.Add m path handler).1.Add m path handler).1.lookup m =
      router.lookup m ++ [NewRoute path handler, NewRoute path handler] := by
  refine ⟨rfl, ?_, ?_, ?_, rfl, rfl, rfl, ?_⟩
  · simp [Router.Add, Router.addRoute, Router.lookup]
  · intro m2 hne
    simp [Router.Add, Router.addRoute, hne]
  · intro m2 hne
    simp [Router.Add, Router.addRoute, Router.lookup, hne]
  · simp [Router.Add, Router.addRoute, Router.lookup]

/-- C10 fails on the code.  On `flushingRouter`, which has no entry for the
method `BREW` and whose not-found handler calls `Flush` on the writer it is
given, `BREW /coffee` is logged twice. -/
theorem absent_method_logs_once_counterexample :
    flushingRouter.routes brewRequest.Method = none ∧
    (ServeHTTP plainEnv flushingRouter [] brewRequest).trace =
      [Event.NotFound brewRequest, Event.Log 200 brewRequest, Event.Log 200 brewRequest] ∧
    (ServeHTTP plainEnv flushingRouter [] brewRequest).trace.countP Event.isLog = 2 :=
  ⟨rfl, by decide, by decide⟩

/-- C10, amended.  When the route table has no entry for the request's method,
the lookup is the empty sequence, `ServeHTTP` is the not-found branch on the
fresh state, it calls no `Match`, no filter and no route handler, the trace
ends with a log call, and the log callback is called exactly once provided
the not-found handler, if there is one, does not call `Flush` itself. -/
theorem absent_method_not_found (env : Env) (router : Router) (w : ResponseWriter)
    (r : Request) (habsent : router.routes r.Method = none)
    (hquiet : ∀ h, router.NotFoundHandler = some h → ∀ req, Effect.Flush ∉ h req) :
    router.lookup r.Method = [] ∧
    ServeHTTP env router w r = serveNotFound router (initState router w r) ∧
    (∀ e ∈ (ServeHTTP env router w r).trace,
      e.isMatch = false ∧ e.isFilter = false ∧ e.isHandler = false) ∧
    (router.NotFoundHandler = none →
      (ServeHTTP env router w r).trace = [Event.Log 404 r]) ∧
    (∀ h, router.NotFoundHandler = some h →
      (ServeHTTP env router w r).trace =
        [Event.NotFound r, Event.Log (reportedStatus (lastStatus (h r)))
          (ServeHTTP env router w r).r]) ∧
    (ServeHTTP env router w r).trace.countP Event.isLog = 1 := by
  have hlookup : router.lookup r.Method = [] := by simp [Router.lookup, habsent]
  have hnone : ∀ R ∈ router.lookup r.Method, (env.Match R r.URL.Path).2 = false := by
    simp [hlookup]
  have hserve : ServeHTTP env router w r = serveNotFound router (initState router w r) := by
    unfold ServeHTTP
    rw [hlookup]
    rfl
  have hdefault : router.NotFoundHandler = none →
      (ServeHTTP env router w r).trace = [Event.Log 404 r] := by
    intro hnil
    rw [hserve]
    simp [serveNotFound, hnil, httpError, Flush, WriteHeader, Write, initState, flushStatus,
      StatusNotFound]
  have hcustom : ∀ h, router.NotFoundHandler = some h →
      (ServeHTTP env router w r).trace =
        [Event.NotFound r, Event.Log (reportedStatus (lastStatus (h r)))
          (ServeHTTP env router w r).r] := by
    intro h hsome
    have hst : flushStatus
        (runEffects ((initState router w r).emit (Event.NotFound r)) (h r)).lrw.statusCode =
        reportedStatus (lastStatus (h r)) := by
      rw [runEffects_status]
      cases lastStatus (h r) <;>
        simp [reportedStatus, flushStatus, StatusOK, ServeState.emit, initState]
    rw [hserve]
    simp only [serveNotFound, hsome]
    have hq := (runEffects_quiet ((initState router w r).emit (Event.NotFound (initState router w r).r))
      (h (initState router w r).r) (hquiet h hsome _)).1
    simp only [Flush, hq]
    simp only [initState, ServeState.emit, List.nil_append] at hst ⊢
    rw [hst]
    rfl
  refine ⟨hlookup, hserve, ?_, hdefault, hcustom, ?_⟩
  · intro e he
    cases hnf : router.NotFoundHandler with
    | none =>
      rw [hdefault hnf] at he
      simp only [List.mem_singleton] at he
      subst he
      exact ⟨rfl, rfl, rfl⟩
    | some h =>
      rw [hcustom h hnf] at he
      simp only [List.mem_cons, List.mem_singleton, List.not_mem_nil, or_false] at he
      rcases he with rfl | rfl <;> exact ⟨rfl, rfl, rfl⟩
  · cases hnf : router.NotFoundHandler with
    | none =>
      rw [hdefault hnf]
      rfl
    | some h =>
      rw [hcustom h hnf]
      rfl

/-- C10, amended, on the router of `New` at `BREW /coffee`: one log call, with
status 404. -/
theorem absent_method_not_found_witness :
    (ServeHTTP plainEnv (New plainEnv) [] brewRequest).trace = [Event.Log 404 brewRequest] :=
  (absent_method_not_found plainEnv (New plainEnv) [] brewRequest rfl
    (fun h hsome => by simp [New] at hsome)).2.2.2.1 rfl

/-! ## Lemmas on what a call preserves -/

theorem runEffects_preserves (P : ServeState → Prop) (allowed : Effect → Prop)
    (hEff : ∀ s e, P s → allowed e → P (runEffect s e))
    (s : ServeState) (effects : List Effect) (hs : P s) (hall : ∀ e ∈ effects, allowed e) :
    P (runEffects s effects) := by
  induction effects generalizing s with
  | nil => exact hs
  | cons e rest ih =>
    rw [runEffects_cons]
    exact ih _ (hEff s e hs (hall e (List.mem_cons_self _ _)))
      (fun e2 he2 => hall e2 (List.mem_cons_of_mem _ he2))

theorem runBeforeFilters_preserves (P : ServeState → Prop) (allowed : Effect → Prop)
    (hEmit : ∀ s e, P s → e.isLog = false → (∀ q, e.request? = some q → q = s.r) →
      P (s.emit e))
    (hEff : ∀ s e, P s → allowed e → P (runEffect s e))
    (filters : List BeforeFilterFunc) (i : Nat) (s : ServeState) (hs : P s)
    (hall : ∀ f ∈ filters, ∀ req, ∀ e ∈ (f req).1, allowed e) :
    P (runBeforeFilters filters i s).1 := by
  induction filters generalizing i s with
  | nil => exact hs
  | cons f rest ih =>
    have hstep : P (runEffects (s.emit (Event.Filter i s.r)) (f s.r).1) :=
      runEffects_preserves P allowed hEff _ _
        (hEmit s _ hs rfl (fun q hq => by simpa [Event.request?] using hq.symm))
        (hall f (List.mem_cons_self _ _) s.r)
    rw [runBeforeFilters_cons]
    split
    · exact ih _ _ hstep (fun g hg => hall g (List.mem_cons_of_mem _ hg))
    · exact hstep

/-- What the emitted events, the allowed effects and `Flush` preserve, a whole
`ServeHTTP` call preserves, from the state in which the matched branch enters
the filter loop or in which the not-found branch starts. -/
theorem ServeHTTP_preserves (P : ServeState → Prop) (allowed : Effect → Prop)
    (hEmit : ∀ s e, P s → e.isLog = false → (∀ q, e.request? = some q → q = s.r) →
      P (s.emit e))
    (hEff : ∀ s e, P s → allowed e → P (runEffect s e))
    (hFlush : ∀ s, P s → P (Flush s))
    (hWriteHeader : ∀ c, allowed (Effect.WriteHeader c))
    (hWrite : ∀ d, allowed (Effect.Write d))
    (env : Env) (router : Router) (w : ResponseWriter) (r : Request)
    (hfilters : ∀ f ∈ router.beforeFilters, ∀ req, ∀ e ∈ (f req).1, allowed e)
    (hhandlers : ∀ route ∈ router.lookup r.Method, ∀ req, ∀ e ∈ route.Handler req, allowed e)
    (hnotFound : ∀ h, router.NotFoundHandler = some h → ∀ req, ∀ e ∈ h req, allowed e) :
    ((∀ R ∈ router.lookup r.Method, (env.Match R r.URL.Path).2 = false) →
      P { initState router w r with
          trace := matchEvents 0 (router.lookup r.Method).length r.URL.Path } →
      P (ServeHTTP env router w r)) ∧
    (∀ k route, FirstMatch env (router.lookup r.Method) r.URL.Path k route →
      P (filterEntry env router w r k route) → P (ServeHTTP env router w r)) := by
  refine ⟨?_, ?_⟩
  · intro hnone hs
    rw [ServeHTTP_of_noMatch env router w r hnone]
    unfold serveNotFound
    cases hnf : router.NotFoundHandler with
    | none =>
      simp only
      apply hFlush
      exact hEff _ (Effect.Write _) (hEff _ (Effect.WriteHeader _) hs (hWriteHeader _))
        (hWrite _)
    | some h =>
      simp only
      apply hFlush
      apply runEffects_preserves P allowed hEff
      · exact hEmit _ _ hs rfl (fun q hq => by simpa [Event.request?] using hq.symm)
      · exact hnotFound h hnf _
  · intro k route hfm hs
    have hfe := runBeforeFilters_preserves P allowed hEmit hEff router.beforeFilters 0
      (filterEntry env router w r k route) hs hfilters
    rw [ServeHTTP_matched env router w r k route hfm]
    apply hFlush
    split
    · apply runEffects_preserves P allowed hEff
      · exact hEmit _ _ hfe rfl (fun q hq => by simpa [Event.request?] using hq.symm)
      · exact hhandlers route (List.getElem?_mem hfm.1) _
    · exact hfe

/-- Either some entry of the sequence is the first match, or none matches. -/
theorem firstMatch_or_none (env : Env) (routes : List Route) (path : String) :
    (∃ k route, FirstMatch env routes path k route) ∨
      ∀ R ∈ routes, (env.Match R path).2 = false := by
  rcases Classical.em (∃ (i : Nat) (R : Route), routes[i]? = some R ∧
      (env.Match R path).2 = true) with hex | hex
  · obtain ⟨i, R, hi, hm⟩ := hex
    obtain ⟨k, route, hfm, _⟩ := exists_firstMatch env _ _ i R hi hm
    exact Or.inl ⟨k, route, hfm⟩
  · right
    intro R hR
    obtain ⟨i, hi, hiR⟩ := List.getElem_of_mem hR
    by_contra hne
    exact hex ⟨i, R, by rw [List.getElem?_eq_getElem hi, hiR], by simpa using hne⟩

theorem flushStatus_ne_zero (c : Int) : flushStatus c ≠ 0 := by
  unfold flushStatus
  split
  · simp [StatusOK]
  · assumption

theorem mem_emit (s : ServeState) (e x : Event) (h : x ∈ (s.emit e).trace) :
    x ∈ s.trace ∨ x = e := by
  simpa [ServeState.emit] using h

theorem matchEvents_mem (i n : Nat) (path : String) (e : Event)
    (h : e ∈ matchEvents i n path) : ∃ l, e = Event.Match l path := by
  induction n generalizing i with
  | zero => simp [matchEvents] at h
  | succ n ih =>
    simp only [matchEvents, List.mem_cons] at h
    rcases h with rfl | h
    · exact ⟨i, rfl⟩
    · exact ih _ h

/-- No `ServeHTTP` call passes status 0 to the log callback. -/
theorem ServeHTTP_noZeroLog (env : Env) (router : Router) (w : ResponseWriter) (r : Request) :
    NoZeroLog (ServeHTTP env router w r) := by
  have hEmit : ∀ s e, NoZeroLog s → e.isLog = false →
      (∀ q, e.request? = some q → q = s.r) → NoZeroLog (s.emit e) := by
    intro s e hs he _ c q hmem
    rcases mem_emit s e _ hmem with h | h
    · exact hs c q h
    · subst h
      simp [Event.isLog] at he
  have hFlush : ∀ s, NoZeroLog s → NoZeroLog (Flush s) := by
    intro s hs c q hmem
    simp only [Flush, List.mem_append, List.mem_singleton, Event.Log.injEq] at hmem
    rcases hmem with h | ⟨h, _⟩
    · exact hs c q h
    · rw [h]
      exact flushStatus_ne_zero _
  have hEff : ∀ s e, NoZeroLog s → True → NoZeroLog (runEffect s e) := by
    intro s e hs _
    cases e with
    | Flush => exact hFlush s hs
    | WriteHeader c => exact hs
    | Write d => exact hs
    | SetRequest q => exact hs
    | Add m p h0 => exact hs
    | Get p h0 => exact hs
    | AddBeforeFilter f => exact hs
    | SetNotFoundHandler h0 => exact hs
    | SetRequestLogFunc l => exact hs
  have hmatch : ∀ n, NoZeroLog { initState router w r with
      trace := matchEvents 0 n r.URL.Path } := by
    intro n c q hmem
    obtain ⟨l, hl⟩ := matchEvents_mem _ _ _ _ hmem
    cases hl
  have hpres := ServeHTTP_preserves NoZeroLog (fun _ => True) hEmit hEff hFlush
    (fun _ => trivial) (fun _ => trivial) env router w r
    (fun _ _ _ _ _ => trivial) (fun _ _ _ _ _ => trivial) (fun _ _ _ _ _ => trivial)
  rcases firstMatch_or_none env (router.lookup r.Method) r.URL.Path with ⟨k, route, hfm⟩ | hnone
  · exact hpres.2 k route hfm (hmatch (k + 1))
  · exact hpres.1 hnone (hmatch _)

/-- C17. `Flush` calls the log callback with the stored status when that is not
0 and with 200 when it is 0, whether 0 was never overwritten or was stored by
`WriteHeader(0)`; the status it passes is never 0, and no log call of any
`ServeHTTP` call has status 0. -/
theorem flush_status_never_zero (s : ServeState) :
    (Flush s).trace = s.trace ++ [Event.Log (flushStatus s.lrw.statusCode) s.r] ∧
    flushStatus s.lrw.statusCode ≠ 0 ∧
    (s.lrw.statusCode = 0 → flushStatus s.lrw.statusCode = 200) ∧
    (s.lrw.statusCode ≠ 0 → flushStatus s.lrw.statusCode = s.lrw.statusCode) ∧
    (Flush (WriteHeader s 0)).trace = s.trace ++ [Event.Log 200 s.r] ∧
    (∀ router w r, (Flush (initState router w r)).trace = [Event.Log 200 r]) ∧
    (∀ env router w r c q, Event.Log c q ∈ (ServeHTTP env router w r).trace → c ≠ 0) := by
  refine ⟨rfl, flushStatus_ne_zero _, ?_, ?_, rfl, fun _ _ _ => rfl, ?_⟩
  · intro h
    simp [flushStatus, h, StatusOK]
  · intro h
    simp [flushStatus, h]
  · intro env router w r c q hmem
    exact ServeHTTP_noZeroLog env router w r c q hmem

/-- When no callable calls `Flush`, the output of a `ServeHTTP` call is the one
line the log callback of the router emits for the final status and request. -/
theorem ServeHTTP_output (env : Env) (router : Router) (w : ResponseWriter) (r : Request)
    (hfilters : ∀ f ∈ router.beforeFilters, ∀ req, Effect.Flush ∉ (f req).1)
    (hhandlers : ∀ route ∈ router.lookup r.Method, ∀ req, Effect.Flush ∉ route.Handler req)
    (hnotFound : ∀ h, router.NotFoundHandler = some h → ∀ req, Effect.Flush ∉ h req) :
    (ServeHTTP env router w r).stdout =
      [router.RequestLogFunc (flushStatus (ServeHTTP env router w r).lrw.statusCode)
        (ServeHTTP env router w r).r] := by
  rcases firstMatch_or_none env (router.lookup r.Method) r.URL.Path with
    ⟨k, route, hfm⟩ | hnone
  · have := (serveMatched_logs env router route k (env.Match route r.URL.Path).1
      { initState router w r with trace := matchEvents 0 (k + 1) r.URL.Path }
      hfilters (hhandlers route (List.getElem?_mem hfm.1))).2
    rw [← ServeHTTP_of_firstMatch env router w r k route hfm] at this
    simpa [initState] using this
  · have := (serveNotFound_logs router
      { initState router w r with
        trace := matchEvents 0 (router.lookup r.Method).length r.URL.Path } hnotFound).2
    rw [← ServeHTTP_of_noMatch env router w r hnone] at this
    simpa [initState] using this

/-- C12 fails on the code.  The default callback prints `r.URL`, not the path:
for status 200 and `GET /users/42?sort=asc` the line is
`200 - /users/42?sort=asc`, and when `ServeHTTP` has served that request on
`scenarioRouter` the line carries the query that dispatch rewrote. -/
theorem default_log_line_counterexample :
    (New plainEnv).RequestLogFunc 200 scenarioRequest = "200 - /users/42?sort=asc\n" ∧
    (New plainEnv).RequestLogFunc 200 scenarioRequest ≠ "200 - /users/42\n" ∧
    (New plainEnv).RequestLogFunc 200 scenarioRequest ≠ "200 - /users/42" ∧
    (ServeHTTP plainEnv scenarioRouter [] scenarioRequest).stdout =
      ["200 - /users/42?id=42&sort=asc\n"] := by
  decide

/-- C12, amended.  The callback installed by `New` writes, for every status and
request, the decimal status, the text ` - `, the URL of the request as
`URL.String` renders it (the whole URL, not the path alone) and a newline; a
router with this callback, served by callables that do not call `Flush`, puts
out that one line for the final status and the URL of the final request; and
for a matched request, when the callables leave the request alone, that URL
is the path with the query that dispatch rewrote. -/
theorem default_log_line (env : Env) (statusCode : Int) (r : Request) :
    (New env).RequestLogFunc statusCode r =
      toString statusCode ++ " - " ++ env.URLString r.URL ++ "\n" ∧
    (∀ (router : Router) (w : ResponseWriter),
      router.RequestLogFunc = (New env).RequestLogFunc →
      (∀ f ∈ router.beforeFilters, ∀ req, Effect.Flush ∉ (f req).1) →
      (∀ route ∈ router.lookup r.Method, ∀ req, Effect.Flush ∉ route.Handler req) →
      (∀ h, router.NotFoundHandler = some h → ∀ req, Effect.Flush ∉ h req) →
      (ServeHTTP env router w r).stdout =
        [toString (flushStatus (ServeHTTP env router w r).lrw.statusCode) ++ " - " ++
          env.URLString (ServeHTTP env router w r).r.URL ++ "\n"]) ∧
    (∀ (router : Router) (w : ResponseWriter) (k : Nat) (route : Route),
      router.RequestLogFunc = (New env).RequestLogFunc →
      (∀ f ∈ router.beforeFilters, ∀ req, ∀ e ∈ (f req).1,
        e ≠ Effect.Flush ∧ e.isSetRequest = false) →
      (∀ route ∈ router.lookup r.Method, ∀ req, ∀ e ∈ route.Handler req,
        e ≠ Effect.Flush ∧ e.isSetRequest = false) →
      FirstMatch env (router.lookup r.Method) r.URL.Path k route →
      (ServeHTTP env router w r).stdout =
        [toString (flushStatus (ServeHTTP env router w r).lrw.statusCode) ++ " - " ++
          env.URLString
            { Path := r.URL.Path
              RawQuery := env.Encode
                (mergeValues (env.Query r.URL.RawQuery) (env.Match route r.URL.Path).1) } ++
          "\n"]) := by
  refine ⟨rfl, ?_, ?_⟩
  · intro router w hlog hfilters hhandlers hnotFound
    rw [ServeHTTP_output env router w r hfilters hhandlers hnotFound, hlog]
    rfl
  · intro router w k route hlog hfilters hhandlers hfm
    have hmem : route ∈ router.lookup r.Method := List.getElem?_mem hfm.1
    have hout := (serveMatched_logs env router route k (env.Match route r.URL.Path).1
      { initState router w r with trace := matchEvents 0 (k + 1) r.URL.Path }
      (fun f hf req hflush => (hfilters f hf req _ hflush).1 rfl)
      (fun req hflush => (hhandlers route hmem req _ hflush).1 rfl)).2
    rw [← ServeHTTP_of_firstMatch env router w r k route hfm] at hout
    have hreq : (ServeHTTP env router w r).r =
        rewriteQuery env r (env.Match route r.URL.Path).1 := by
      rw [ServeHTTP_matched env router w r k route hfm]
      have hfe := runBeforeFilters_preserves
        (fun s => s.r = rewriteQuery env r (env.Match route r.URL.Path).1)
        (fun e => e.isSetRequest = false)
        (fun s e hs _ _ => hs)
        (fun s e hs he => by
          cases e <;> first | exact hs | (simp [Effect.isSetRequest] at he))
        router.beforeFilters 0 (filterEntry env router w r k route) rfl
        (fun f hf req e he => (hfilters f hf req e he).2)
      split
      · exact runEffects_preserves
          (fun s => s.r = rewriteQuery env r (env.Match route r.URL.Path).1)
          (fun e => e.isSetRequest = false)
          (fun s e hs he => by
            cases e <;> first | exact hs | (simp [Effect.isSetRequest] at he))
          _ _ hfe (fun e he => (hhandlers route hmem _ e he).2)
      · exact hfe
    have hout2 : (ServeHTTP env router w r).stdout =
        [router.RequestLogFunc (flushStatus (ServeHTTP env router w r).lrw.statusCode)
          (ServeHTTP env router w r).r] := by
      simpa [initState] using hout
    rw [hout2, hlog, hreq]
    rfl

/-- C14. When no filter, no handler of the method's sequence and no not-found
handler calls the registration API, the router after `ServeHTTP` is the router
before it: the route table (an absent method stays absent), the filter chain,
`NotFoundHandler` and `RequestLogFunc` are unchanged. -/
theorem serving_keeps_router (env : Env) (router : Router) (w : ResponseWriter) (r : Request)
    (hfilters : ∀ f ∈ router.beforeFilters, ∀ req, ∀ e ∈ (f req).1, e.isRegistration = false)
    (hhandlers : ∀ route ∈ router.lookup r.Method, ∀ req, ∀ e ∈ route.Handler req,
      e.isRegistration = false)
    (hnotFound : ∀ h, router.NotFoundHandler = some h → ∀ req, ∀ e ∈ h req,
      e.isRegistration = false) :
    (ServeHTTP env router w r).router = router ∧
    (ServeHTTP env router w r).router.routes = router.routes ∧
    (router.routes r.Method = none → (ServeHTTP env router w r).router.routes r.Method = none) ∧
    (ServeHTTP env router w r).router.beforeFilters = router.beforeFilters ∧
    (ServeHTTP env router w r).router.NotFoundHandler = router.NotFoundHandler ∧
    (ServeHTTP env router w r).router.RequestLogFunc = router.RequestLogFunc := by
  have hpres := ServeHTTP_preserves (fun s => s.router = router)
    (fun e => e.isRegistration = false)
    (fun s e hs _ _ => hs)
    (fun s e hs he => by
      cases e <;> first | exact hs | (simp [Effect.isRegistration] at he))
    (fun s hs => hs) (fun _ => rfl) (fun _ => rfl) env router w r hfilters hhandlers hnotFound
  have key : (ServeHTTP env router w r).router = router := by
    rcases firstMatch_or_none env (router.lookup r.Method) r.URL.Path with
      ⟨k, route, hfm⟩ | hnone
    · exact hpres.2 k route hfm rfl
    · exact hpres.1 hnone rfl
  rw [key]
  exact ⟨rfl, rfl, fun h => h, rfl, rfl, rfl⟩

/-- C14 at `GET /users/42?id=7` on `exampleRouter`, whose handlers only write a
body. -/
theorem serving_keeps_router_witness :
    (ServeHTTP plainEnv exampleRouter [] exampleRequest).router = exampleRouter :=
  (serving_keeps_router plainEnv exampleRouter [] exampleRequest
    (by simp [exampleRouter, Router.Get, Router.Add, Router.addRoute, New])
    (by
      intro route hroute req e he
      have : route = NewRoute "/users/:id" (writeBody "by id") ∨
          route = NewRoute "/users/42" (writeBody "exact") := by
        simpa [exampleRouter, exampleRequest, Router.Get, Router.Add, Router.addRoute, New,
          Router.lookup] using hroute
      rcases this with rfl | rfl <;>
        (simp only [NewRoute, writeBody, List.mem_singleton] at he; subst he; rfl))
    (by simp [exampleRouter, Router.Get, Router.Add, Router.addRoute, New])).1

/-- A handler that calls `AddBeforeFilter` on the serving router leaves the
router with one more filter: the proviso of C14 is needed. -/
theorem registration_in_handler_changes_router :
    lateRegistrationRouter.beforeFilters.length = 0 ∧
    (ServeHTTP plainEnv lateRegistrationRouter [] lateRequest).router.beforeFilters.length = 1 ∧
    (ServeHTTP plainEnv lateRegistrationRouter [] lateRequest).trace =
      [Event.Match 0 "/late", Event.Handler 0 lateRequest, Event.Log 200 lateRequest] := by
  decide

/-- C15. When no entry of the method's sequence matches, `ServeHTTP` calls no
before-filter, whatever the chain holds: no event of the trace, before or
after the not-found handler or the default 404, is a filter call. -/
theorem no_filters_on_not_found (env : Env) (router : Router) (w : ResponseWriter)
    (r : Request)
    (hnone : ∀ R ∈ router.lookup r.Method, (env.Match R r.URL.Path).2 = false) :
    (ServeHTTP env router w r).trace.filter Event.isFilter = [] ∧
    (∀ i q, Event.Filter i q ∉ (ServeHTTP env router w r).trace) ∧
    (ServeHTTP env router w r).trace.filter Event.isHandler = [] := by
  have hserve := ServeHTTP_of_noMatch env router w r hnone
  have key : ∀ p : Event → Bool, (∀ c q, p (Event.Log c q) = false) →
      (∀ i path, p (Event.Match i path) = false) → (∀ q, p (Event.NotFound q) = false) →
      (ServeHTTP env router w r).trace.filter p = [] := by
    intro p hlog hmatch hnf
    rw [hserve]
    unfold serveNotFound
    cases hh : router.NotFoundHandler with
    | none =>
      simp [httpError, Flush, WriteHeader, Write, initState, hlog,
        matchEvents_filter p hmatch]
    | some h =>
      simp only [Flush, List.filter_append]
      rw [runEffects_filter p hlog]
      simp [ServeState.emit, initState, hlog, hnf, matchEvents_filter p hmatch]
  refine ⟨key _ (fun _ _ => rfl) (fun _ _ => rfl) (fun _ => rfl), ?_,
    key _ (fun _ _ => rfl) (fun _ _ => rfl) (fun _ => rfl)⟩
  intro i q hmem
  have : Event.Filter i q ∈ (ServeHTTP env router w r).trace.filter Event.isFilter :=
    List.mem_filter.mpr ⟨hmem, rfl⟩
  rw [key _ (fun _ _ => rfl) (fun _ _ => rfl) (fun _ => rfl)] at this
  cases this

/-- C15 at `GET /missing` on `guardedRouter`, which has three filters and no
route for the path: no filter is called. -/
theorem no_filters_on_not_found_witness :
    (ServeHTTP plainEnv guardedRouter [] missingRequest).trace.filter Event.isFilter = [] :=
  (no_filters_on_not_found plainEnv guardedRouter [] missingRequest (by decide)).1

/-! ## Lemmas on the request -/

theorem allRequests_emit (q : Request) (s : ServeState) (e : Event) (hs : AllRequests q s)
    (he : ∀ q2, e.request? = some q2 → q2 = s.r) : AllRequests q (s.emit e) := by
  refine ⟨hs.1, ?_⟩
  intro x hx q2 hq2
  rcases mem_emit s e x hx with h | h
  · exact hs.2 x h q2 hq2
  · subst h
    rw [he q2 hq2]
    exact hs.1

theorem allRequests_Flush (q : Request) (s : ServeState) (hs : AllRequests q s) :
    AllRequests q (Flush s) := by
  refine ⟨hs.1, ?_⟩
  intro x hx q2 hq2
  simp only [Flush, List.mem_append, List.mem_singleton] at hx
  rcases hx with h | h
  · exact hs.2 x h q2 hq2
  · subst h
    simp only [Event.request?, Option.some.injEq] at hq2
    rw [← hq2]
    exact hs.1

theorem allRequests_runEffect (q : Request) (s : ServeState) (e : Effect)
    (hs : AllRequests q s) (he : e.isSetRequest = false) : AllRequests q (runEffect s e) := by
  cases e with
  | Flush => exact allRequests_Flush q s hs
  | SetRequest q2 => simp [Effect.isSetRequest] at he
  | WriteHeader c => exact hs
  | Write d => exact hs
  | Add m p h0 => exact hs
  | Get p h0 => exact hs
  | AddBeforeFilter f => exact hs
  | SetNotFoundHandler h0 => exact hs
  | SetRequestLogFunc l => exact hs

theorem allRequests_matchEvents (q : Request) (s : ServeState) (i n : Nat) (path : String)
    (hr : s.r = q) (ht : s.trace = matchEvents i n path) : AllRequests q s := by
  refine ⟨hr, ?_⟩
  intro x hx q2 hq2
  rw [ht] at hx
  obtain ⟨l, rfl⟩ := matchEvents_mem _ _ _ _ hx
  simp [Event.request?] at hq2

/-- C16. When no filter, no handler of the method's sequence and no not-found
handler assigns through the request pointer: the method and the path of the
request after `ServeHTTP` are those before it; when no entry matches, the
request is unchanged and every call is made with it; when entry `k` is the
first match, the request after the call is the request with `RawQuery`
replaced by the encoding of the merged query, and every filter, handler and
log call is made with that request, so the replacement precedes them all. -/
theorem dispatcher_writes_only_raw_query (env : Env) (router : Router) (w : ResponseWriter)
    (r : Request)
    (hfilters : ∀ f ∈ router.beforeFilters, ∀ req, ∀ e ∈ (f req).1, e.isSetRequest = false)
    (hhandlers : ∀ route ∈ router.lookup r.Method, ∀ req, ∀ e ∈ route.Handler req,
      e.isSetRequest = false)
    (hnotFound : ∀ h, router.NotFoundHandler = some h → ∀ req, ∀ e ∈ h req,
      e.isSetRequest = false) :
    (ServeHTTP env router w r).r.Method = r.Method ∧
    (ServeHTTP env router w r).r.URL.Path = r.URL.Path ∧
    ((∀ R ∈ router.lookup r.Method, (env.Match R r.URL.Path).2 = false) →
      (ServeHTTP env router w r).r = r ∧
      ∀ e ∈ (ServeHTTP env router w r).trace, ∀ q, e.request? = some q → q = r) ∧
    (∀ k route, FirstMatch env (router.lookup r.Method) r.URL.Path k route →
      (ServeHTTP env router w r).r =
        { Method := r.Method
          URL := { Path := r.URL.Path
                   RawQuery := env.Encode
                     (mergeValues (env.Query r.URL.RawQuery) (env.Match route r.URL.Path).1) } } ∧
      ∀ e ∈ (ServeHTTP env router w r).trace, ∀ q, e.request? = some q →
        q = rewriteQuery env r (env.Match route r.URL.Path).1) := by
  have hpres := fun q => ServeHTTP_preserves (AllRequests q) (fun e => e.isSetRequest = false)
    (fun s e hs _ he => allRequests_emit q s e hs he)
    (fun s e hs he => allRequests_runEffect q s e hs he)
    (fun s hs => allRequests_Flush q s hs) (fun _ => rfl) (fun _ => rfl)
    env router w r hfilters hhandlers hnotFound
  have hnone : (∀ R ∈ router.lookup r.Method, (env.Match R r.URL.Path).2 = false) →
      AllRequests r (ServeHTTP env router w r) := fun h =>
    (hpres r).1 h (allRequests_matchEvents r _ 0 _ r.URL.Path rfl rfl)
  have hmatched : ∀ k route, FirstMatch env (router.lookup r.Method) r.URL.Path k route →
      AllRequests (rewriteQuery env r (env.Match route r.URL.Path).1)
        (ServeHTTP env router w r) := fun k route hfm =>
    (hpres _).2 k route hfm (allRequests_matchEvents _ _ 0 (k + 1) r.URL.Path rfl rfl)
  refine ⟨?_, ?_, fun h => hnone h, fun k route hfm => ⟨(hmatched k route hfm).1,
    (hmatched k route hfm).2⟩⟩
  · rcases firstMatch_or_none env (router.lookup r.Method) r.URL.Path with
      ⟨k, route, hfm⟩ | h
    · rw [(hmatched k route hfm).1]
      rfl
    · rw [(hnone h).1]
  · rcases firstMatch_or_none env (router.lookup r.Method) r.URL.Path with
      ⟨k, route, hfm⟩ | h
    · rw [(hmatched k route hfm).1]
      rfl
    · rw [(hnone h).1]

/-- C16 at `GET /users/42?id=7` on `guardedRouter`: method and path are kept. -/
theorem dispatcher_writes_only_raw_query_witness :
    (ServeHTTP plainEnv guardedRouter [] exampleRequest).r.Method = "GET" ∧
    (ServeHTTP plainEnv guardedRouter [] exampleRequest).r.URL.Path = "/users/42" :=
  have h := dispatcher_writes_only_raw_query plainEnv guardedRouter [] exampleRequest
    (by
      intro f hf req e he
      simp only [guardedRouter, Router.AddBeforeFilter, exampleRouter, Router.Get, Router.Add,
        Router.addRoute, New, List.nil_append, List.cons_append, List.mem_cons,
        List.mem_singleton, List.not_mem_nil, or_false] at hf
      rcases hf with rfl | rfl | rfl
      · simp at he
      · simp only [List.mem_singleton] at he
        subst he
        rfl
      · simp at he)
    (by
      intro route hroute req e he
      have : route = NewRoute "/users/:id" (writeBody "by id") ∨
          route = NewRoute "/users/42" (writeBody "exact") := by
        simpa [guardedRouter, Router.AddBeforeFilter, exampleRouter, exampleRequest, Router.Get,
          Router.Add, Router.addRoute, New, Router.lookup] using hroute
      rcases this with rfl | rfl <;>
        (simp only [NewRoute, writeBody, List.mem_singleton] at he; subst he; rfl))
    (by simp [guardedRouter, Router.AddBeforeFilter, exampleRouter, Router.Get, Router.Add,
      Router.addRoute, New])
  ⟨h.1, h.2.1⟩

/-- C11 fails on the code.  On `wipingRouter`, whose before-filter empties the
query and returns true, `GET /users/42?sort=asc` matches `/users/:id` with `id`
bound to `[42]`, and the handler runs with an empty query: it finds neither
`id` nor `sort`. -/
theorem handler_query_counterexample :
    plainEnv.Match (NewRoute "/users/:id" echoId) scenarioRequest.URL.Path =
      ([("id", ["42"])], true) ∧
    (ServeHTTP plainEnv wipingRouter [] scenarioRequest).trace =
      [Event.Match 0 "/users/42",
       Event.Filter 0
        { Method := "GET", URL := { Path := "/users/42", RawQuery := "id=42&sort=asc" } },
       Event.Handler 0 { Method := "GET", URL := { Path := "/users/42", RawQuery := "" } },
       Event.Log 200 { Method := "GET", URL := { Path := "/users/42", RawQuery := "" } }] ∧
    Values.get? (plainEnv.Query "") "id" = none ∧
    Values.get? (plainEnv.Query "") "sort" = none ∧
    (ServeHTTP plainEnv wipingRouter [] scenarioRequest).lrw.ResponseWriter =
      [WriterCall.Write ""] := by
  decide

/-- C11, amended.  When entry `k` is the first match, the filter chain returns
true and no filter assigns through the request pointer, the handler of entry
`k` is called once, with the request whose `RawQuery` encodes the merged
query; the merged query holds every binding of `Match` and, under every key
`Match` does not bind, the values the query held.  In the scenario (route
`GET /users/:id`, request `GET /users/42?sort=asc`, handler sets no status) the
handler is called with the query `id=42&sort=asc`, which parses to `id = [42]`
and `sort = [asc]`, it writes `42`, and the log callback is called with 200
and a request whose path is `/users/42`. -/
theorem handler_sees_merged_query (env : Env) (router : Router) (w : ResponseWriter)
    (r : Request) (k : Nat) (route : Route)
    (hfm : FirstMatch env (router.lookup r.Method) r.URL.Path k route)
    (hnodup : ((env.Match route r.URL.Path).1.map Prod.fst).Nodup)
    (hpass : (runBeforeFilters router.beforeFilters 0
      (filterEntry env router w r k route)).2 = true)
    (hkeep : ∀ f ∈ router.beforeFilters, ∀ req, ∀ e ∈ (f req).1, e.isSetRequest = false) :
    (ServeHTTP env router w r).trace.filter Event.isHandler =
      [Event.Handler k (rewriteQuery env r (env.Match route r.URL.Path).1)] ∧
    (rewriteQuery env r (env.Match route r.URL.Path).1).URL.RawQuery =
      env.Encode (mergeValues (env.Query r.URL.RawQuery) (env.Match route r.URL.Path).1) ∧
    (∀ name v, Values.get? (env.Match route r.URL.Path).1 name = some v →
      Values.get? (mergeValues (env.Query r.URL.RawQuery) (env.Match route r.URL.Path).1) name =
        some v) ∧
    (∀ other, Values.get? (env.Match route r.URL.Path).1 other = none →
      Values.get? (mergeValues (env.Query r.URL.RawQuery) (env.Match route r.URL.Path).1) other =
        Values.get? (env.Query r.URL.RawQuery) other) ∧
    (ServeHTTP plainEnv scenarioRouter [] scenarioRequest).trace =
      [Event.Match 0 "/users/42",
       Event.Handler 0
        { Method := "GET", URL := { Path := "/users/42", RawQuery := "id=42&sort=asc" } },
       Event.Log 200
        { Method := "GET", URL := { Path := "/users/42", RawQuery := "id=42&sort=asc" } }] ∧
    plainEnv.Query "id=42&sort=asc" = [("id", ["42"]), ("sort", ["asc"])] ∧
    (ServeHTTP plainEnv scenarioRouter [] scenarioRequest).lrw.ResponseWriter =
      [WriterCall.Write "42"] := by
  have hreq : (runBeforeFilters router.beforeFilters 0 (filterEntry env router w r k route)).1.r =
      rewriteQuery env r (env.Match route r.URL.Path).1 :=
    runBeforeFilters_preserves
      (fun s => s.r = rewriteQuery env r (env.Match route r.URL.Path).1)
      (fun e => e.isSetRequest = false)
      (fun s e hs _ _ => hs)
      (fun s e hs he => by
        cases e <;> first | exact hs | (simp [Effect.isSetRequest] at he))
      router.beforeFilters 0 (filterEntry env router w r k route) rfl hkeep
  refine ⟨?_, rfl, fun name v h => mergeValues_get?_captured _ _ _ _ hnodup h,
    fun other h => mergeValues_get?_other _ _ _ h, by decide, by decide, by decide⟩
  rw [ServeHTTP_matched env router w r k route hfm, hpass]
  simp only [if_true, Flush, List.filter_append]
  rw [runEffects_filter Event.isHandler (fun _ _ => rfl)]
  simp only [ServeState.emit, List.filter_append]
  rw [runBeforeFilters_filter Event.isHandler (fun _ _ => rfl) (fun _ _ => rfl), hreq]
  simp [filterEntry, matchEvents_filter Event.isHandler (fun _ _ => rfl), Event.isHandler]

/-- C11, amended, in the scenario: the handler is called with the query
`id=42&sort=asc`. -/
theorem handler_sees_merged_query_witness :
    (ServeHTTP plainEnv scenarioRouter [] scenarioRequest).trace.filter Event.isHandler =
      [Event.Handler 0 (rewriteQuery plainEnv scenarioRequest
        (plainEnv.Match (NewRoute "/users/:id" echoId) "/users/42").1)] :=
  (handler_sees_merged_query plainEnv scenarioRouter [] scenarioRequest 0
    (NewRoute "/users/:id" echoId)
    ⟨rfl, by decide, fun l R hl _ => absurd hl (Nat.not_lt_zero l)⟩
    (by decide) (by decide)
    (by simp [scenarioRouter, Router.Get, Router.Add, Router.addRoute, New])).1

/-! ## Lemmas on the phases of a request -/

/-- A `ServeHTTP` call ends with `Flush`, and the trace before that `Flush` is:
the `Match` calls, then the filter calls (with the log calls the filters
make), then the call of the handler or of the not-found handler (with the log
calls it makes). -/
theorem ServeHTTP_before_Flush (env : Env) (router : Router) (w : ResponseWriter)
    (r : Request) :
    ∃ X ms fs hs, ServeHTTP env router w r = Flush X ∧ X.trace = ms ++ fs ++ hs ∧
      (∀ e ∈ ms, e.isMatch = true) ∧
      (∀ e ∈ fs, e.isFilter = true ∨ e.isLog = true) ∧
      (∀ e, fs.head? = some e → e.isFilter = true) ∧
      (∀ e, hs.head? = some e → e.isHandler = true ∨ e.isNotFound = true) ∧
      (∀ e ∈ hs.tail, e.isLog = true) := by
  rcases firstMatch_or_none env (router.lookup r.Method) r.URL.Path with
    ⟨k, route, hfm⟩ | hnone
  · obtain ⟨t, ht, htl, hfirst⟩ :=
      runBeforeFilters_trace router.beforeFilters 0 (filterEntry env router w r k route)
    have hhead : ∀ e, t.head? = some e → e.isFilter = true := by
      intro e he
      cases hfs : router.beforeFilters with
      | nil =>
        rw [hfs] at ht
        have : t = [] := by simpa [runBeforeFilters] using ht
        rw [this] at he
        cases he
      | cons f rest =>
        obtain ⟨t2, rfl⟩ := hfirst f rest hfs
        simp only [List.head?_cons, Option.some.injEq] at he
        rw [← he]
        rfl
    have ht2 : (runBeforeFilters router.beforeFilters 0
        (filterEntry env router w r k route)).1.trace = matchEvents 0 (k + 1) r.URL.Path ++ t :=
      ht
    rw [ServeHTTP_matched env router w r k route hfm]
    split
    · obtain ⟨t3, ht3, hlog3, _⟩ := runEffects_trace
        ((runBeforeFilters router.beforeFilters 0 (filterEntry env router w r k route)).1.emit
          (Event.Handler k
            (runBeforeFilters router.beforeFilters 0 (filterEntry env router w r k route)).1.r))
        (route.Handler
          (runBeforeFilters router.beforeFilters 0 (filterEntry env router w r k route)).1.r)
      refine ⟨_, matchEvents 0 (k + 1) r.URL.Path, t,
        Event.Handler k
          (runBeforeFilters router.beforeFilters 0 (filterEntry env router w r k route)).1.r :: t3,
        rfl, ?_, matchEvents_isMatch _ _ _, htl, hhead, ?_, hlog3⟩
      · rw [ht3]
        simp only [ServeState.emit]
        rw [ht2]
        simp
      · intro e he
        simp only [List.head?_cons, Option.some.injEq] at he
        rw [← he]
        exact Or.inl rfl
    · refine ⟨_, matchEvents 0 (k + 1) r.URL.Path, t, [], rfl, ?_, matchEvents_isMatch _ _ _,
        htl, hhead, by simp, by simp⟩
      rw [ht2]
      simp
  · rw [ServeHTTP_of_noMatch env router w r hnone]
    unfold serveNotFound
    cases hnf : router.NotFoundHandler with
    | none =>
      refine ⟨_, matchEvents 0 (router.lookup r.Method).length r.URL.Path, [], [], rfl, ?_,
        matchEvents_isMatch _ _ _, by simp, by simp, by simp, by simp⟩
      simp [httpError, WriteHeader, Write]
    | some h =>
      obtain ⟨t3, ht3, hlog3, _⟩ := runEffects_trace
        (ServeState.emit { initState router w r with
          trace := matchEvents 0 (router.lookup r.Method).length r.URL.Path } (Event.NotFound r))
        (h r)
      refine ⟨_, matchEvents 0 (router.lookup r.Method).length r.URL.Path, [],
        Event.NotFound r :: t3, rfl, ?_, matchEvents_isMatch _ _ _, by simp, by simp, ?_,
        hlog3⟩
      · exact ht3.trans (by simp [ServeState.emit])
      · intro e he
        simp only [List.head?_cons, Option.some.injEq] at he
        rw [← he]
        exact Or.inr rfl

/-- The trace of a `ServeHTTP` call: the `Match` calls, then the filter calls
(with the log calls the filters make), then the call of the handler or of the
not-found handler (with the log calls it makes), then the log call of the
final `Flush`. -/
theorem ServeHTTP_segments (env : Env) (router : Router) (w : ResponseWriter) (r : Request) :
    ∃ ms fs hs c q, (ServeHTTP env router w r).trace = ms ++ fs ++ hs ++ [Event.Log c q] ∧
      (∀ e ∈ ms, e.isMatch = true) ∧
      (∀ e ∈ fs, e.isFilter = true ∨ e.isLog = true) ∧
      (∀ e, fs.head? = some e → e.isFilter = true) ∧
      (∀ e, hs.head? = some e → e.isHandler = true ∨ e.isNotFound = true) ∧
      (∀ e ∈ hs.tail, e.isLog = true) := by
  obtain ⟨X, ms, fs, hs, hX, ht, h1, h2, h3, h4, h5⟩ := ServeHTTP_before_Flush env router w r
  refine ⟨ms, fs, hs, flushStatus X.lrw.statusCode, X.r, ?_, h1, h2, h3, h4, h5⟩
  rw [hX]
  simp only [Flush, ht]

theorem phase_le_three (e : Event) : e.phase ≤ 3 := by
  cases e <;> simp [Event.phase]

theorem pairwise_phase_segments (a b c : List Event) (ha : ∀ e ∈ a, e.phase = 0)
    (hb : ∀ e ∈ b, e.phase = 1) (hc : ∀ e ∈ c, e.phase = 2) :
    (a ++ b ++ c).Pairwise (fun x y => x.phase ≤ y.phase) := by
  rw [List.pairwise_append, List.pairwise_append]
  refine ⟨⟨?_, ?_, ?_⟩, ?_, ?_⟩
  · exact List.pairwise_of_forall_mem_list (fun x hx y hy => by rw [ha x hx, ha y hy])
  · exact List.pairwise_of_forall_mem_list (fun x hx y hy => by rw [hb x hx, hb y hy])
  · intro x hx y hy
    rw [ha x hx, hb y hy]
    exact Nat.zero_le _
  · exact List.pairwise_of_forall_mem_list (fun x hx y hy => by rw [hc x hx, hc y hy])
  · intro x hx y hy
    rw [hc y hy]
    rcases List.mem_append.mp hx with h | h
    · rw [ha x h]
      exact Nat.zero_le _
    · rw [hb x h]
      exact Nat.le_succ _

/-- The calls other than log calls are ordered by phase. -/
theorem ServeHTTP_calls_ordered (env : Env) (router : Router) (w : ResponseWriter)
    (r : Request) :
    ((ServeHTTP env router w r).trace.filter (fun e => !e.isLog)).Pairwise
      (fun x y => x.phase ≤ y.phase) := by
  obtain ⟨ms, fs, hs, c, q, ht, hms, hfs, _, hhs, hhst⟩ := ServeHTTP_segments env router w r
  have hsplit : (ServeHTTP env router w r).trace.filter (fun e => !e.isLog) =
      ms.filter (fun e => !e.isLog) ++ fs.filter (fun e => !e.isLog) ++
        hs.filter (fun e => !e.isLog) := by
    rw [ht]
    simp [List.filter_append, Event.isLog]
  rw [hsplit]
  apply pairwise_phase_segments
  · intro e he
    have := hms e (List.mem_filter.mp he).1
    cases e <;> simp [Event.isMatch] at this
    rfl
  · intro e he
    obtain ⟨hmem, hnot⟩ := List.mem_filter.mp he
    rcases hfs e hmem with h | h
    · cases e <;> simp [Event.isFilter] at h
      rfl
    · simp [h] at hnot
  · intro e he
    obtain ⟨hmem, hnot⟩ := List.mem_filter.mp he
    cases hs with
    | nil => cases hmem
    | cons x t =>
      rcases List.mem_cons.mp hmem with rfl | hmem
      · rcases hhs e rfl with h | h
        · cases e <;> simp [Event.isHandler] at h
          rfl
        · cases e <;> simp [Event.isNotFound] at h
          rfl
      · have := hhst e hmem
        simp [this] at hnot

/-- When no callable calls `Flush`, the trace holds exactly one log call. -/
theorem ServeHTTP_single_log (env : Env) (router : Router) (w : ResponseWriter) (r : Request)
    (hfilters : ∀ f ∈ router.beforeFilters, ∀ req, Effect.Flush ∉ (f req).1)
    (hhandlers : ∀ route ∈ router.lookup r.Method, ∀ req, Effect.Flush ∉ route.Handler req)
    (hnotFound : ∀ h, router.NotFoundHandler = some h → ∀ req, Effect.Flush ∉ h req) :
    ((ServeHTTP env router w r).trace.filter Event.isLog).length = 1 := by
  rcases firstMatch_or_none env (router.lookup r.Method) r.URL.Path with
    ⟨k, route, hfm⟩ | hnone
  · have := (serveMatched_logs env router route k (env.Match route r.URL.Path).1
      { initState router w r with trace := matchEvents 0 (k + 1) r.URL.Path }
      hfilters (hhandlers route (List.getElem?_mem hfm.1))).1
    rw [← ServeHTTP_of_firstMatch env router w r k route hfm] at this
    rw [this]
    simp [matchEvents_filter Event.isLog (fun _ _ => rfl)]
  · have := (serveNotFound_logs router
      { initState router w r with
        trace := matchEvents 0 (router.lookup r.Method).length r.URL.Path } hnotFound).1
    rw [← ServeHTTP_of_noMatch env router w r hnone] at this
    rw [this]
    simp [matchEvents_filter Event.isLog (fun _ _ => rfl)]

/-- C13 fails on the code.  On `flushingFilterRouter`, whose before-filter
calls `Flush` and returns true, the log callback is called during the filter
phase: the trace of `GET /users/42?id=7` is a `Match` call, the filter call, a
log call, the handler call and the final log call, of phases 0, 1, 3, 2, 3,
so an event of the handling phase follows an event of the flushed phase and
the first log call is not the last event. -/
theorem request_phases_counterexample :
    (ServeHTTP plainEnv flushingFilterRouter [] exampleRequest).trace =
      [Event.Match 0 "/users/42",
       Event.Filter 0 { Method := "GET", URL := { Path := "/users/42", RawQuery := "id=42" } },
       Event.Log 200 { Method := "GET", URL := { Path := "/users/42", RawQuery := "id=42" } },
       Event.Handler 0 { Method := "GET", URL := { Path := "/users/42", RawQuery := "id=42" } },
       Event.Log 200 { Method := "GET", URL := { Path := "/users/42", RawQuery := "id=42" } }] ∧
    (ServeHTTP plainEnv flushingFilterRouter [] exampleRequest).trace.map Event.phase =
      [0, 1, 3, 2, 3] ∧
    ¬ (ServeHTTP plainEnv flushingFilterRouter [] exampleRequest).trace.Pairwise
      (fun x y => x.phase ≤ y.phase) := by
  decide

/-- C13, amended.  When no filter, no handler of the method's sequence and no
not-found handler calls `Flush` itself, the trace of one `ServeHTTP` call is
ordered by phase: it is the `Match` calls, then the filter calls, then at most
one call of a route handler or of the not-found handler, then the log call,
which is the last event and the only log call; no event of an earlier phase
follows an event of a later phase. -/
theorem request_phases_in_order (env : Env) (router : Router) (w : ResponseWriter)
    (r : Request)
    (hfilters : ∀ f ∈ router.beforeFilters, ∀ req, Effect.Flush ∉ (f req).1)
    (hhandlers : ∀ route ∈ router.lookup r.Method, ∀ req, Effect.Flush ∉ route.Handler req)
    (hnotFound : ∀ h, router.NotFoundHandler = some h → ∀ req, Effect.Flush ∉ h req) :
    (ServeHTTP env router w r).trace.Pairwise (fun x y => x.phase ≤ y.phase) ∧
    (∃ ms fs hs c q, (ServeHTTP env router w r).trace = ms ++ fs ++ hs ++ [Event.Log c q] ∧
      (∀ e ∈ ms, e.isMatch = true) ∧
      (∀ e ∈ fs, e.isFilter = true) ∧
      (∀ e ∈ hs, e.isHandler = true ∨ e.isNotFound = true) ∧
      hs.length ≤ 1) := by
  obtain ⟨ms, fs, hs, c, q, ht, hms, hfs, _, hhs, hhst⟩ := ServeHTTP_segments env router w r
  have hone := ServeHTTP_single_log env router w r hfilters hhandlers hnotFound
  have hcalls := ServeHTTP_calls_ordered env router w r
  rw [ht] at hone hcalls ⊢
  have hinit : ∀ e ∈ ms ++ fs ++ hs, e.isLog = false := by
    have hlen : ((ms ++ fs ++ hs).filter Event.isLog).length = 0 := by
      have hlast : [Event.Log c q].filter Event.isLog = [Event.Log c q] := rfl
      rw [List.filter_append, hlast, List.length_append, List.length_singleton] at hone
      omega
    have hnil : (ms ++ fs ++ hs).filter Event.isLog = [] := List.length_eq_zero.mp hlen
    intro e he
    have := List.filter_eq_nil_iff.mp hnil e he
    simpa using this
  have hself : (ms ++ fs ++ hs).filter (fun e => !e.isLog) = ms ++ fs ++ hs := by
    rw [List.filter_eq_self]
    intro e he
    simp [hinit e he]
  rw [List.filter_append, hself] at hcalls
  have hord : (ms ++ fs ++ hs).Pairwise (fun x y => x.phase ≤ y.phase) := by
    simpa [Event.isLog] using hcalls
  refine ⟨?_, ms, fs, hs, c, q, rfl, hms, ?_, ?_, ?_⟩
  · rw [List.pairwise_append]
    refine ⟨hord, List.pairwise_singleton _ _, ?_⟩
    intro a _ b hb
    simp only [List.mem_singleton] at hb
    subst hb
    exact phase_le_three a
  · intro e he
    rcases hfs e he with h | h
    · exact h
    · have := hinit e (List.mem_append_left _ (List.mem_append_right _ he))
      rw [h] at this
      cases this
  · intro e he
    cases hs with
    | nil => cases he
    | cons x t =>
      rcases List.mem_cons.mp he with rfl | he2
      · exact hhs e rfl
      · have h1 := hhst e he2
        have h2 := hinit e (List.mem_append_right _ he)
        rw [h1] at h2
        cases h2
  · cases hs with
    | nil => simp
    | cons x t =>
      cases t with
      | nil => simp
      | cons y t2 =>
        have h1 := hhst y (List.mem_cons_self _ _)
        have h2 := hinit y (List.mem_append_right _
          (List.mem_cons_of_mem _ (List.mem_cons_self _ _)))
        rw [h1] at h2
        cases h2

/-- C13, amended, at `GET /users/42?id=7` on `guardedRouter`, whose callables
do not call `Flush`: the trace is ordered by phase. -/
theorem request_phases_in_order_witness :
    (ServeHTTP plainEnv guardedRouter [] exampleRequest).trace.Pairwise
      (fun x y => x.phase ≤ y.phase) :=
  (request_phases_in_order plainEnv guardedRouter [] exampleRequest
    (by
      intro f hf req
      simp only [guardedRouter, Router.AddBeforeFilter, exampleRouter, Router.Get, Router.Add,
        Router.addRoute, New, List.nil_append, List.cons_append, List.mem_cons,
        List.mem_singleton, List.not_mem_nil, or_false] at hf
      rcases hf with rfl | rfl | rfl <;> simp)
    (by
      intro route hroute req
      have : route = NewRoute "/users/:id" (writeBody "by id") ∨
          route = NewRoute "/users/42" (writeBody "exact") := by
        simpa [guardedRouter, Router.AddBeforeFilter, exampleRouter, exampleRequest, Router.Get,
          Router.Add, Router.addRoute, New, Router.lookup] using hroute
      rcases this with rfl | rfl <;> simp [NewRoute, writeBody])
    (by simp [guardedRouter, Router.AddBeforeFilter, exampleRouter, Router.Get, Router.Add,
      Router.addRoute, New])).1

end Traffic
